import Mathlib

/-!
# tb::Canvas : graphics context, image dispatch and JPEG loader

A shallow embedding of `sources/canvas.cc` and `include/tb/canvas.h`.

* C++ `double` values are idealised as rationals.
* The rasterizer (cairo) is an external library: its context is modelled as a
  record holding the state that the calls made by `canvas.cc` read or write,
  the list of drawing commits made on the surface, and the list of API calls
  in the order they were made.  Each `cairo_*` definition below follows the
  documented contract of the library function of the same name.
* Geometry that only the rasterizer can compute (the bounding extents of a
  stroke or a fill) is supplied by a `Rasterizer` record taken as a parameter.
-/

namespace tb

/-! ## Value types of the tb library used by the canvas -/

/-- Pixel of four 8-bit components, as read by `operator[]` with index 0..3. -/
structure Pixel where
  c0 : Nat
  c1 : Nat
  c2 : Nat
  c3 : Nat
deriving DecidableEq, Repr

/-- Component `c[i]` converted to the `double` parameter it is passed to. -/
def Pixel.comp (c : Pixel) : Nat → ℚ
  | 0 => (c.c0 : ℚ)
  | 1 => (c.c1 : ℚ)
  | 2 => (c.c2 : ℚ)
  | _ => (c.c3 : ℚ)

/-- Modelled from the spec: `Vector<2, double>` of `tb/types.h`, which is not
among the sources; "simple data", a pair of coordinates. -/
structure Vector2 where
  x : ℚ
  y : ℚ
deriving DecidableEq, Repr

/-- Modelled from the spec: `Rect<2, double>` of `tb/rect.h`, which is not among
the sources: "an axis-aligned rectangle over real coordinates with a union
operator `|=` that grows it to cover both operands". -/
structure Rect where
  x0 : ℚ
  y0 : ℚ
  x1 : ℚ
  y1 : ℚ
deriving DecidableEq, Repr

namespace Rect

/-- Modelled from the spec: the rect spanned by two corner points, the
constructor `Rect(Vector, Vector)` of the missing `tb/rect.h`. -/
def ofCorners (a b : Vector2) : Rect :=
  { x0 := min a.x b.x, y0 := min a.y b.y, x1 := max a.x b.x, y1 := max a.y b.y }

/-- Modelled from the spec: the default-constructed rect of the missing
`tb/rect.h`; the dirty-rect accumulator is "initialized empty". -/
def empty : Rect := { x0 := 0, y0 := 0, x1 := 0, y1 := 0 }

/-- Modelled from the spec: `operator|=` of the missing `tb/rect.h`, the
smallest rect that covers both operands. -/
def union (a b : Rect) : Rect :=
  { x0 := min a.x0 b.x0, y0 := min a.y0 b.y0, x1 := max a.x1 b.x1, y1 := max a.y1 b.y1 }

/-- Rect `a` covers rect `b`. -/
def contains (a b : Rect) : Prop :=
  a.x0 ≤ b.x0 ∧ a.y0 ≤ b.y0 ∧ b.x1 ≤ a.x1 ∧ b.y1 ≤ a.y1

instance (a b : Rect) : Decidable (a.contains b) := by
  unfold contains; exact inferInstance

/-- Rect `a` covers the point `(x, y)`. -/
def covers (a : Rect) (x y : ℚ) : Prop :=
  a.x0 ≤ x ∧ x ≤ a.x1 ∧ a.y0 ≤ y ∧ y ≤ a.y1

instance (a : Rect) (x y : ℚ) : Decidable (a.covers x y) := by
  unfold covers; exact inferInstance

end Rect

/-! ## The rasterizer (cairo), modelled from its API contract -/

inductive cairo_line_join_t
  | CAIRO_LINE_JOIN_MITER
  | CAIRO_LINE_JOIN_ROUND
  | CAIRO_LINE_JOIN_BEVEL
deriving DecidableEq, Repr

inductive cairo_line_cap_t
  | CAIRO_LINE_CAP_BUTT
  | CAIRO_LINE_CAP_ROUND
  | CAIRO_LINE_CAP_SQUARE
deriving DecidableEq, Repr

inductive cairo_font_slant_t
  | CAIRO_FONT_SLANT_NORMAL
  | CAIRO_FONT_SLANT_ITALIC
  | CAIRO_FONT_SLANT_OBLIQUE
deriving DecidableEq, Repr

inductive cairo_font_weight_t
  | CAIRO_FONT_WEIGHT_NORMAL
  | CAIRO_FONT_WEIGHT_BOLD
deriving DecidableEq, Repr

inductive cairo_format_t
  | CAIRO_FORMAT_ARGB32
  | CAIRO_FORMAT_RGB24
deriving DecidableEq, Repr

open cairo_line_join_t cairo_line_cap_t cairo_font_slant_t cairo_font_weight_t cairo_format_t

/-- Image surface: pixel format and size. -/
structure cairo_surface_t where
  format : cairo_format_t
  width : Nat
  height : Nat
deriving DecidableEq, Repr

/-- A point of a path.  Points whose coordinates need trigonometry or font
metrics are kept symbolic. -/
inductive Pt
  | xy (x y : ℚ)
  | on_arc (xc yc radius angle : ℚ)
  | after_text (origin : Pt) (utf8 : String)
deriving DecidableEq, Repr

/-- One element of the current path of a context. -/
inductive PathElt
  | move_to (p : Pt)
  | line_to (p : Pt)
  | curve_to (p1 p2 p3 : Pt)
  | arc (xc yc radius angle1 angle2 : ℚ)
  | close_path
deriving DecidableEq, Repr

/-- A source pattern object.  `id` is the identity of the object: 0 is the
built-in default source of a context (opaque black, never destroyed), every
pattern made by `cairo_set_source_rgba` gets a new identity. -/
structure cairo_pattern_t where
  id : Nat
  red : ℚ
  green : ℚ
  blue : ℚ
  alpha : ℚ
deriving DecidableEq, Repr

/-- Font face selected in a context; `none` is the default face.  A slant or
weight read past the end of its table is `none`. -/
structure FontFace where
  family : String
  slant : Option cairo_font_slant_t
  weight : Option cairo_font_weight_t
deriving DecidableEq, Repr

/-- A drawing commit: an operation that alters pixels of the surface. -/
inductive Draw
  | fill (path : List PathElt) (source : cairo_pattern_t)
  | stroke (path : List PathElt) (source : cairo_pattern_t) (line_width : ℚ)
      (cap : Option cairo_line_cap_t) (join : Option cairo_line_join_t)
  | paint (source : cairo_pattern_t)
  | show_text (utf8 : String) (origin : Pt) (source : cairo_pattern_t) (font : Option FontFace)
deriving DecidableEq, Repr

/-- A call of the rasterizer API with its arguments. -/
inductive Call
  | stroke_extents
  | set_source_rgba (red green blue alpha : ℚ)
  | fill_preserve
  | set_line_width (width : ℚ)
  | set_line_cap (cap : Option cairo_line_cap_t)
  | set_line_join (join : Option cairo_line_join_t)
  | stroke
  | select_font_face (family : String) (slant : Option cairo_font_slant_t)
      (weight : Option cairo_font_weight_t)
  | get_source
  | set_source (source : cairo_pattern_t)
  | paint
  | move_to (x y : ℚ)
  | line_to (x y : ℚ)
  | arc (xc yc radius angle1 angle2 : ℚ)
  | curve_to (x1 y1 x2 y2 x3 y3 : ℚ)
  | rectangle (x y width height : ℚ)
  | show_text (utf8 : String)
  | new_path
  | close_path
  | destroy
deriving DecidableEq, Repr

/-- Drawing context `cairo_t`.  `pen` is `none` when there is no current
point, else the start point of the current sub-path and the current point. -/
structure cairo_t where
  target : cairo_surface_t
  path : List PathElt
  pen : Option (Pt × Pt)
  source : cairo_pattern_t
  fresh : Nat
  line_width : ℚ
  line_cap : Option cairo_line_cap_t
  line_join : Option cairo_line_join_t
  font : Option FontFace
  drawn : List Draw
  calls : List Call
deriving DecidableEq, Repr

/-- Geometry answers of the rasterizer: the bounding extents `(x1, y1, x2, y2)`
of the area a stroke of a path with the given line width, cap and join would
touch, and of the area a fill of a path would touch. -/
structure Rasterizer where
  stroke_extents : List PathElt → ℚ → Option cairo_line_cap_t → Option cairo_line_join_t →
    ℚ × ℚ × ℚ × ℚ
  fill_extents : List PathElt → ℚ × ℚ × ℚ × ℚ

/-- The default source of a new context: opaque black. -/
def cairo_pattern_black : cairo_pattern_t :=
  { id := 0, red := 0, green := 0, blue := 0, alpha := 1 }

/-- Model of `cairo_create`: empty path, no current point, default source,
line width 2.0, butt caps, miter joins, default font. -/
def cairo_create (target : cairo_surface_t) : cairo_t :=
  { target := target, path := [], pen := none, source := cairo_pattern_black, fresh := 1,
    line_width := 2, line_cap := some CAIRO_LINE_CAP_BUTT,
    line_join := some CAIRO_LINE_JOIN_MITER, font := none, drawn := [], calls := [] }

/-- Colour components are clamped to the range 0..1. -/
def clamp01 (v : ℚ) : ℚ := max 0 (min 1 v)

/-- Model of `cairo_stroke_extents`: the extents of the area the current path
would touch if stroked with the line width, cap and join installed in the
context at the time of the call. -/
def cairo_stroke_extents (rz : Rasterizer) (cr : cairo_t) : (ℚ × ℚ × ℚ × ℚ) × cairo_t :=
  (rz.stroke_extents cr.path cr.line_width cr.line_cap cr.line_join,
   { cr with calls := cr.calls ++ [Call.stroke_extents] })

/-- Model of `cairo_set_source_rgba`: a call with the colour already installed
changes nothing; otherwise the context drops its reference to the installed
pattern and installs a new solid pattern. -/
def cairo_set_source_rgba (cr : cairo_t) (red green blue alpha : ℚ) : cairo_t :=
  let cr := { cr with calls := cr.calls ++ [Call.set_source_rgba red green blue alpha] }
  if cr.source.red = clamp01 red ∧ cr.source.green = clamp01 green ∧
      cr.source.blue = clamp01 blue ∧ cr.source.alpha = clamp01 alpha then cr
  else
    { cr with
      source := { id := cr.fresh, red := clamp01 red, green := clamp01 green,
                  blue := clamp01 blue, alpha := clamp01 alpha },
      fresh := cr.fresh + 1 }

/-- Model of `cairo_get_source`: the installed pattern; the object stays owned
by the context (no reference is taken for the caller). -/
def cairo_get_source (cr : cairo_t) : cairo_pattern_t × cairo_t :=
  (cr.source, { cr with calls := cr.calls ++ [Call.get_source] })

/-- A pattern handle held by the caller without a reference of its own denotes
a live object only while it is the built-in default or still installed. -/
def cairo_t.live (cr : cairo_t) (p : cairo_pattern_t) : Bool :=
  p.id == 0 || p.id == cr.source.id

/-- Model of `cairo_set_source`: installs the pattern; `none` (undefined) when
the handle denotes a pattern that has been destroyed. -/
def cairo_set_source (cr : cairo_t) (p : cairo_pattern_t) : Option cairo_t :=
  if cr.live p then
    some { cr with source := p, calls := cr.calls ++ [Call.set_source p] }
  else none

/-- Model of `cairo_paint`: paints the installed source everywhere on the
surface. -/
def cairo_paint (cr : cairo_t) : cairo_t :=
  { cr with drawn := cr.drawn ++ [Draw.paint cr.source], calls := cr.calls ++ [Call.paint] }

/-- Model of `cairo_fill_preserve`: fills the current path with the installed
source and keeps the path. -/
def cairo_fill_preserve (cr : cairo_t) : cairo_t :=
  { cr with drawn := cr.drawn ++ [Draw.fill cr.path cr.source],
            calls := cr.calls ++ [Call.fill_preserve] }

/-- Model of `cairo_set_line_width`. -/
def cairo_set_line_width (cr : cairo_t) (width : ℚ) : cairo_t :=
  { cr with line_width := width, calls := cr.calls ++ [Call.set_line_width width] }

/-- Model of `cairo_set_line_cap`. -/
def cairo_set_line_cap (cr : cairo_t) (cap : Option cairo_line_cap_t) : cairo_t :=
  { cr with line_cap := cap, calls := cr.calls ++ [Call.set_line_cap cap] }

/-- Model of `cairo_set_line_join`. -/
def cairo_set_line_join (cr : cairo_t) (join : Option cairo_line_join_t) : cairo_t :=
  { cr with line_join := join, calls := cr.calls ++ [Call.set_line_join join] }

/-- Model of `cairo_stroke`: strokes the current path with the installed source,
line width, cap and join; afterwards the path is cleared, so there is no
current point. -/
def cairo_stroke (cr : cairo_t) : cairo_t :=
  { cr with
    drawn := cr.drawn ++ [Draw.stroke cr.path cr.source cr.line_width cr.line_cap cr.line_join],
    path := [], pen := none, calls := cr.calls ++ [Call.stroke] }

/-- Model of `cairo_select_font_face`. -/
def cairo_select_font_face (cr : cairo_t) (family : String)
    (slant : Option cairo_font_slant_t) (weight : Option cairo_font_weight_t) : cairo_t :=
  { cr with font := some { family := family, slant := slant, weight := weight },
            calls := cr.calls ++ [Call.select_font_face family slant weight] }

/-- Model of `cairo_new_path`: clears the current path; no current point. -/
def cairo_new_path (cr : cairo_t) : cairo_t :=
  { cr with path := [], pen := none, calls := cr.calls ++ [Call.new_path] }

/-- Model of `cairo_close_path`: adds a segment from the current point to the
start of the current sub-path and closes it; the current point becomes that
start point.  Without a current point the call has no effect. -/
def cairo_close_path (cr : cairo_t) : cairo_t :=
  let cr := { cr with calls := cr.calls ++ [Call.close_path] }
  match cr.pen with
  | none => cr
  | some (start, _) => { cr with path := cr.path ++ [PathElt.close_path], pen := some (start, start) }

/-- Model of `cairo_move_to`: begins a new sub-path at the point. -/
def cairo_move_to (cr : cairo_t) (x y : ℚ) : cairo_t :=
  { cr with path := cr.path ++ [PathElt.move_to (Pt.xy x y)],
            pen := some (Pt.xy x y, Pt.xy x y), calls := cr.calls ++ [Call.move_to x y] }

/-- Model of `cairo_line_to`: adds a segment from the current point; without a
current point the call behaves as `cairo_move_to`. -/
def cairo_line_to (cr : cairo_t) (x y : ℚ) : cairo_t :=
  let cr := { cr with calls := cr.calls ++ [Call.line_to x y] }
  match cr.pen with
  | none => { cr with path := cr.path ++ [PathElt.move_to (Pt.xy x y)],
                      pen := some (Pt.xy x y, Pt.xy x y) }
  | some (start, _) => { cr with path := cr.path ++ [PathElt.line_to (Pt.xy x y)],
                                 pen := some (start, Pt.xy x y) }

/-- Model of `cairo_arc`: with a current point, a segment to the beginning of
the arc is added first; without one the arc begins a new sub-path. -/
def cairo_arc (cr : cairo_t) (xc yc radius angle1 angle2 : ℚ) : cairo_t :=
  let cr := { cr with calls := cr.calls ++ [Call.arc xc yc radius angle1 angle2] }
  let a := Pt.on_arc xc yc radius angle1
  let b := Pt.on_arc xc yc radius angle2
  match cr.pen with
  | none => { cr with path := cr.path ++ [PathElt.move_to a, PathElt.arc xc yc radius angle1 angle2],
                      pen := some (a, b) }
  | some (start, _) =>
      { cr with path := cr.path ++ [PathElt.line_to a, PathElt.arc xc yc radius angle1 angle2],
                pen := some (start, b) }

/-- Model of `cairo_curve_to`: a cubic spline from the current point to
`(x3, y3)`; without a current point the call behaves as if preceded by
`cairo_move_to (x1, y1)`. -/
def cairo_curve_to (cr : cairo_t) (x1 y1 x2 y2 x3 y3 : ℚ) : cairo_t :=
  let cr := { cr with calls := cr.calls ++ [Call.curve_to x1 y1 x2 y2 x3 y3] }
  let c := PathElt.curve_to (Pt.xy x1 y1) (Pt.xy x2 y2) (Pt.xy x3 y3)
  match cr.pen with
  | none => { cr with path := cr.path ++ [PathElt.move_to (Pt.xy x1 y1), c],
                      pen := some (Pt.xy x1 y1, Pt.xy x3 y3) }
  | some (start, _) => { cr with path := cr.path ++ [c], pen := some (start, Pt.xy x3 y3) }

/-- Model of `cairo_rectangle`: a closed sub-path, the same as `move_to (x, y)`,
three relative segments and `close_path`. -/
def cairo_rectangle (cr : cairo_t) (x y width height : ℚ) : cairo_t :=
  { cr with
    path := cr.path ++ [PathElt.move_to (Pt.xy x y), PathElt.line_to (Pt.xy (x + width) y),
      PathElt.line_to (Pt.xy (x + width) (y + height)), PathElt.line_to (Pt.xy x (y + height)),
      PathElt.close_path],
    pen := some (Pt.xy x y, Pt.xy x y),
    calls := cr.calls ++ [Call.rectangle x y width height] }

/-- Model of `cairo_show_text`: draws the glyphs at the current point (the
origin when there is none) with the installed source and font, then moves the
current point past the text.  An empty string draws nothing. -/
def cairo_show_text (cr : cairo_t) (utf8 : String) : cairo_t :=
  let cr := { cr with calls := cr.calls ++ [Call.show_text utf8] }
  if utf8 = "" then cr
  else
    let origin : Pt := match cr.pen with
      | none => Pt.xy 0 0
      | some (_, p) => p
    let next := Pt.after_text origin utf8
    { cr with drawn := cr.drawn ++ [Draw.show_text utf8 origin cr.source cr.font],
              path := cr.path ++ [PathElt.move_to next], pen := some (next, next) }

/-- Model of `cairo_destroy`: the context is released; its commits remain on the
surface. -/
def cairo_destroy (cr : cairo_t) : cairo_t :=
  { cr with calls := cr.calls ++ [Call.destroy] }

/-! ## Canvas and GC (`include/tb/canvas.h`, `sources/canvas.cc`) -/

/-- Enum `GC::Slant`. -/
inductive Slant
  | slant_normal
  | slant_italic
  | slant_oblique
deriving DecidableEq, Repr

/-- Enum `GC::Weight`. -/
inductive Weight
  | weight_normal
  | weight_bold
deriving DecidableEq, Repr

/-- Enum `GC::Cap`. -/
inductive Cap
  | cap_butt
  | cap_round
  | cap_square
deriving DecidableEq, Repr

/-- Enum `GC::Join`. -/
inductive Join
  | join_miter
  | join_round
  | join_bevel
deriving DecidableEq, Repr

/-- Integer value of an enumerator of `Slant`. -/
def Slant.toNat : Slant → Nat
  | slant_normal => 0
  | slant_italic => 1
  | slant_oblique => 2

/-- Integer value of an enumerator of `Weight`. -/
def Weight.toNat : Weight → Nat
  | weight_normal => 0
  | weight_bold => 1

/-- Integer value of an enumerator of `Cap`. -/
def Cap.toNat : Cap → Nat
  | cap_butt => 0
  | cap_round => 1
  | cap_square => 2

/-- Integer value of an enumerator of `Join`. -/
def Join.toNat : Join → Nat
  | join_miter => 0
  | join_round => 1
  | join_bevel => 2

/-- Class `Canvas`: owns one surface. -/
structure Canvas where
  surface : cairo_surface_t
deriving DecidableEq, Repr

/-- Constructor `Canvas::Canvas(unsigned width, unsigned height)`. -/
def Canvas.ctor (width height : Nat) : Canvas :=
  { surface := { format := CAIRO_FORMAT_ARGB32, width := width, height := height } }

/-- Private fields of `Canvas::GC`.  `cap` and `join` hold the stored integer of
the enum member. -/
structure GC where
  gc : cairo_t
  canvas : Canvas
  strokeColor : Pixel
  fillColor : Pixel
  thickness : ℚ
  cap : Nat
  join : Nat
  extents : Rect
deriving DecidableEq, Repr

/-- The values found in the members that the constructor `GC::GC` does not
initialise (it initialises `gc` and `canvas` only). -/
structure Indeterminate where
  strokeColor : Pixel
  fillColor : Pixel
  thickness : ℚ
  cap : Nat
  join : Nat
deriving DecidableEq, Repr

namespace GC

/-- Constructor `GC::GC(Canvas& c) : gc(cairo_create(c.surface)), canvas(c) {}`.
The other scalar members keep whatever their storage held; `extents` is
default-constructed. -/
def ctor (c : Canvas) (u : Indeterminate) : GC :=
  { gc := cairo_create c.surface, canvas := c, strokeColor := u.strokeColor,
    fillColor := u.fillColor, thickness := u.thickness, cap := u.cap, join := u.join,
    extents := Rect.empty }

/-- Table `joins[]` of `Flush`. -/
def joins : List cairo_line_join_t :=
  [CAIRO_LINE_JOIN_MITER, CAIRO_LINE_JOIN_ROUND, CAIRO_LINE_JOIN_BEVEL]

/-- Table `caps[]` of `Flush`. -/
def caps : List cairo_line_cap_t :=
  [CAIRO_LINE_CAP_BUTT, CAIRO_LINE_CAP_ROUND, CAIRO_LINE_CAP_SQUARE]

/-- Table `slants[]` of `Set(family, slant, weight)`. -/
def slants : List cairo_font_slant_t :=
  [CAIRO_FONT_SLANT_NORMAL, CAIRO_FONT_SLANT_ITALIC, CAIRO_FONT_SLANT_OBLIQUE]

/-- Table `weights[]` of `Set(family, slant, weight)`. -/
def weights : List cairo_font_weight_t :=
  [CAIRO_FONT_WEIGHT_NORMAL, CAIRO_FONT_WEIGHT_BOLD]

/-- Method `GC::Flush`.  A table read `caps[cap]` or `joins[join]` past the end
of the table yields `none`. -/
def Flush (rz : Rasterizer) (g : GC) : GC :=
  let (ex, gc) := cairo_stroke_extents rz g.gc
  let e : Rect := Rect.ofCorners ⟨ex.1, ex.2.1⟩ ⟨ex.2.2.1, ex.2.2.2⟩
  let extents := g.extents.union e
  let gc := cairo_set_source_rgba gc (g.fillColor.comp 1) (g.fillColor.comp 2)
    (g.fillColor.comp 3) (g.fillColor.comp 0)
  let gc := cairo_fill_preserve gc
  let gc := cairo_set_source_rgba gc (g.strokeColor.comp 1) (g.strokeColor.comp 2)
    (g.strokeColor.comp 3) (g.strokeColor.comp 0)
  let gc := cairo_set_line_width gc g.thickness
  let gc := cairo_set_line_cap gc (caps.get? g.cap)
  let gc := cairo_set_line_join gc (joins.get? g.join)
  let gc := cairo_stroke gc
  { g with gc := gc, extents := extents }

/-- Method `GC::SetStroke(Pixel<u8> c)`. -/
def SetStroke (rz : Rasterizer) (g : GC) (c : Pixel) : GC :=
  let g := Flush rz g
  { g with strokeColor := c }

/-- Method `GC::SetFill(Pixel<u8> c)`. -/
def SetFill (rz : Rasterizer) (g : GC) (c : Pixel) : GC :=
  let g := Flush rz g
  { g with fillColor := c }

/-- Method `GC::Set(Pixel<u8> sc, Pixel<u8> fc)`. -/
def Set (rz : Rasterizer) (g : GC) (sc fc : Pixel) : GC :=
  let g := Flush rz g
  let g := { g with strokeColor := sc }
  { g with fillColor := fc }

/-- Method `GC::Set(const char* family, Slant slant, Weight weight)`. -/
def SetFont (rz : Rasterizer) (g : GC) (family : String) (slant : Slant) (weight : Weight) : GC :=
  let g := Flush rz g
  let gc := cairo_select_font_face g.gc family (slants.get? slant.toNat)
    (weights.get? weight.toNat)
  { g with gc := gc }

/-- Method `GC::SetThickness(double t)`. -/
def SetThickness (rz : Rasterizer) (g : GC) (t : ℚ) : GC :=
  let g := Flush rz g
  { g with thickness := t }

/-- Method `GC::Set(Cap c)`. -/
def SetCap (rz : Rasterizer) (g : GC) (c : Cap) : GC :=
  let g := Flush rz g
  { g with cap := c.toNat }

/-- Method `GC::Set(Join j)`. -/
def SetJoin (rz : Rasterizer) (g : GC) (j : Join) : GC :=
  let g := Flush rz g
  { g with join := j.toNat }

/-- Method `GC::Clear(Pixel<u8> c)`.  The result is `none` when the pattern
handle passed back to `cairo_set_source` denotes a destroyed pattern. -/
def Clear (g : GC) (c : Pixel) : Option GC :=
  let (p, gc) := cairo_get_source g.gc
  let gc := cairo_set_source_rgba gc (c.comp 1) (c.comp 2) (c.comp 3) (c.comp 0)
  let gc := cairo_paint gc
  match cairo_set_source gc p with
  | none => none
  | some gc => some { g with gc := gc }

/-- Method `GC::MoveTo`. -/
def MoveTo (g : GC) (x y : ℚ) : GC := { g with gc := cairo_move_to g.gc x y }

/-- Method `GC::LineTo`. -/
def LineTo (g : GC) (x y : ℚ) : GC := { g with gc := cairo_line_to g.gc x y }

/-- Method `GC::Arc`. -/
def Arc (g : GC) (x y radius startAngle endAngle : ℚ) : GC :=
  { g with gc := cairo_arc g.gc x y radius startAngle endAngle }

/-- Method `GC::CurveTo`. -/
def CurveTo (g : GC) (x0 y0 xc yc x1 y1 : ℚ) : GC :=
  { g with gc := cairo_curve_to g.gc x0 y0 xc yc x1 y1 }

/-- Method `GC::Rectandle`. -/
def Rectandle (g : GC) (x0 y0 x1 y1 : ℚ) : GC :=
  { g with gc := cairo_rectangle g.gc x0 y0 x1 y1 }

/-- Method `GC::Puts`. -/
def Puts (g : GC) (utf8 : String) : GC := { g with gc := cairo_show_text g.gc utf8 }

/-- What is left when a GC is gone: the commits made on the surface, the
rasterizer calls made, and the rect passed to `Canvas::OnCanvasUpdated`. -/
structure Ended where
  drawn : List Draw
  calls : List Call
  updated : Rect
deriving DecidableEq, Repr

/-- Destructor `GC::~GC`: `Flush`, `cairo_destroy`, then
`canvas.OnCanvasUpdated(extents)`. -/
def dtor (rz : Rasterizer) (g : GC) : Ended :=
  let g := Flush rz g
  let gc := cairo_destroy g.gc
  { drawn := gc.drawn, calls := gc.calls, updated := g.extents }

/-- Constructor `GC::Path::Path(GC& gc)`. -/
def Path.ctor (rz : Rasterizer) (g : GC) : GC :=
  let g := Flush rz g
  { g with gc := cairo_new_path g.gc }

/-- Destructor `GC::Path::~Path`. -/
def Path.dtor (g : GC) : GC := { g with gc := cairo_close_path g.gc }

/-- The seven state setters with their arguments. -/
inductive Setter
  | SetStroke (c : Pixel)
  | SetFill (c : Pixel)
  | Set (sc fc : Pixel)
  | SetFont (family : String) (slant : Slant) (weight : Weight)
  | SetThickness (t : ℚ)
  | SetCap (c : Cap)
  | SetJoin (j : Join)
deriving DecidableEq, Repr

/-- Calls the setter on the GC. -/
def Setter.call (rz : Rasterizer) (g : GC) : Setter → GC
  | .SetStroke c => g.SetStroke rz c
  | .SetFill c => g.SetFill rz c
  | .Set sc fc => g.Set rz sc fc
  | .SetFont family slant weight => g.SetFont rz family slant weight
  | .SetThickness t => g.SetThickness rz t
  | .SetCap c => g.SetCap rz c
  | .SetJoin j => g.SetJoin rz j

/-- The store a setter makes after its `Flush`. -/
def Setter.store (g : GC) : Setter → GC
  | .SetStroke c => { g with strokeColor := c }
  | .SetFill c => { g with fillColor := c }
  | .Set sc fc => { g with strokeColor := sc, fillColor := fc }
  | .SetFont family slant weight =>
      let gc := cairo_select_font_face g.gc family (slants.get? slant.toNat)
        (weights.get? weight.toNat)
      { g with gc := gc }
  | .SetThickness t => { g with thickness := t }
  | .SetCap c => { g with cap := c.toNat }
  | .SetJoin j => { g with join := j.toNat }

end GC

/-! ## Image loading (`Canvas::Load`, `Canvas::LoadJPEG`) -/

/-- Model of `strcasecmp` on NUL-free strings: 0 exactly when the strings are
equal after ASCII case folding, else the sign of the first difference. -/
def strcasecmp (a b : String) : Int :=
  let la := a.data.map Char.toLower
  let lb := b.data.map Char.toLower
  if la = lb then 0 else if la < lb then -1 else 1

/-- Model of `std::filesystem::path::filename`: the part after the last
directory separator. -/
def filename (p : List Char) : List Char :=
  (p.reverse.takeWhile (fun c => c ≠ '/')).reverse

/-- Model of `std::filesystem::path::extension`: the part of the filename from
its last period on; empty for `.` and `..`, for a filename without a period and
for one whose only period is its first character. -/
def extension (path : String) : String :=
  let f := filename path.data
  if f = ['.'] ∨ f = ['.', '.'] then ""
  else
    let tail := f.reverse.takeWhile (fun c => c ≠ '.')
    if tail.length = f.length then ""
    else if tail.length + 1 = f.length then ""
    else String.mk ('.' :: tail.reverse)

/-- The loaders `Canvas::Load` can call, as functions of the path: `LoadJPEG`
and the rasterizer's `cairo_image_surface_create_from_png`; `none` is a null
surface pointer. -/
structure Loaders where
  LoadJPEG : String → Option cairo_surface_t
  cairo_image_surface_create_from_png : String → Option cairo_surface_t

/-- A call of a loader made by `Canvas::Load`. -/
inductive LoaderCall
  | LoadJPEG (path : String)
  | cairo_image_surface_create_from_png (path : String)
deriving DecidableEq, Repr

/-- The loader functions the extension table can point to. -/
inductive Loader
  | LoadJPEG
deriving DecidableEq, Repr

/-- Entry `EXTHandler` of the extension table. -/
structure EXTHandler where
  ext : String
  loader : Loader
deriving DecidableEq, Repr

/-- Table `exts[]` of `Canvas::Load`, without its terminating empty entry. -/
def exts : List EXTHandler :=
  [{ ext := ".jpg", loader := Loader.LoadJPEG }, { ext := ".jpeg", loader := Loader.LoadJPEG }]

/-- Calls the loader an entry points to. -/
def Loader.call (env : Loaders) : Loader → String → Option cairo_surface_t × LoaderCall
  | .LoadJPEG, path => (env.LoadJPEG path, LoaderCall.LoadJPEG path)

/-- The `for` loop of `Canvas::Load` over the table entries: the first surface
a matching loader returns, with the loader calls made. -/
def Load.loop (env : Loaders) (path ext : String) :
    List EXTHandler → List LoaderCall → Option cairo_surface_t × List LoaderCall
  | [], log => (none, log)
  | l :: rest, log =>
    if strcasecmp l.ext ext = 0 then
      match l.loader.call env path with
      | (some s, c) => (some s, log ++ [c])
      | (none, c) => Load.loop env path ext rest (log ++ [c])
    else Load.loop env path ext rest log

/-- Function `Canvas::Load`: the surface returned or the value thrown, with the
loader calls made in order. -/
def Canvas.Load (env : Loaders) (path : String) : Except Int cairo_surface_t × List LoaderCall :=
  let ext := extension path
  match Load.loop env path ext exts [] with
  | (some s, log) => (Except.ok s, log)
  | (none, log) =>
    let log := log ++ [LoaderCall.cairo_image_surface_create_from_png path]
    match env.cairo_image_surface_create_from_png path with
    | some s => (Except.ok s, log)
    | none => (Except.error (-1), log)

/-- Result of `new JSAMPROW[n]`. -/
inductive NewResult
  | allocated
  | null
  | bad_alloc
deriving DecidableEq, Repr

/-- Answers of the operating system and of the JPEG decoder to the calls made
by one run of `LoadJPEG`.  A decoder step answers `none` or `false` when it
reports an error through `error_exit`. -/
structure World where
  open_fd : Int
  st_size : Nat
  mmap_ptr : Nat
  create_decompress_ok : Bool
  read_header : Option (Nat × Nat)
  surface_create : Nat → Nat → Option cairo_surface_t
  new_rows : NewResult
  start_decompress_ok : Bool
  read_scanlines : Nat → Option Nat
  finish_decompress_ok : Bool

/-- Resource events of one run of `LoadJPEG`. -/
inductive Ev
  | open_ok (fd : Int)
  | close (fd : Int)
  | mmap (ptr : Nat)
  | munmap (ptr : Nat)
  | jpeg_create_decompress
  | jpeg_destroy_decompress
  | surface_create
  | surface_destroy
  | new_rows
  | delete_rows
deriving DecidableEq, Repr

/-- How a run of `LoadJPEG` ends: it returns a surface pointer (`none` is
null), the decoder's standard `error_exit` terminates the process, or the
decoder is made to read a buffer that is not mapped (undefined). -/
inductive Outcome
  | returned (surface : Option cairo_surface_t)
  | exited
  | undefined
deriving DecidableEq, Repr

/-- Value `MAP_FAILED`, `(void*) -1`, that `mmap` returns on failure. -/
def MAP_FAILED : Nat := 2 ^ 64 - 1

/-- The loop `while (ci.output_scanline < ci.output_height)` of `LoadJPEG`:
`true` when all rows were read, `false` when a call reported an error.  A
call that answers `some k` has read `k + 1` rows, at most the rows asked
for. -/
def LoadJPEG.scan (w : World) (output_height : Nat) (output_scanline : Nat) : Bool :=
  if output_scanline < output_height then
    match w.read_scanlines output_scanline with
    | none => false
    | some k =>
      LoadJPEG.scan w output_height
        (output_scanline + min (k + 1) (output_height - output_scanline))
  else true
termination_by output_height - output_scanline
decreasing_by omega

/-- Locals of `LoadJPEG` that the `catch` block and the cleanup read. -/
structure JpegLocals where
  thrown : Bool
  surface : Option cairo_surface_t
  jarr : Bool
  trace : List Ev

/-- The `try` block of `LoadJPEG`.  An error a decoder step reports through
`HandleError` lands at `setjmp` and is thrown; the locals `surface` and `jarr`
are taken to keep the values assigned before the jump. -/
def LoadJPEG.tryBlock (w : World) (trace : List Ev) : JpegLocals :=
  match w.read_header with
  | none => { thrown := true, surface := none, jarr := false, trace := trace }
  | some (image_width, image_height) =>
    match w.surface_create image_width image_height with
    | none => { thrown := true, surface := none, jarr := false, trace := trace }
    | some s =>
      let trace := trace ++ [Ev.surface_create]
      match w.new_rows with
      | .bad_alloc => { thrown := true, surface := some s, jarr := false, trace := trace }
      | .null => { thrown := true, surface := some s, jarr := false, trace := trace }
      | .allocated =>
        let trace := trace ++ [Ev.new_rows]
        if ¬ w.start_decompress_ok then
          { thrown := true, surface := some s, jarr := true, trace := trace }
        else if ¬ LoadJPEG.scan w image_height 0 then
          { thrown := true, surface := some s, jarr := true, trace := trace }
        else if ¬ w.finish_decompress_ok then
          { thrown := true, surface := some s, jarr := true, trace := trace }
        else { thrown := false, surface := some s, jarr := true, trace := trace }

/-- Function `Canvas::LoadJPEG`: how the run ends and its resource events.
The test `!jpeg` compares the pointer `mmap` returned with null.  Before
`HandleError` is installed the decoder's standard `error_exit` is in force,
which ends the process; `jpeg_mem_src` reports an error for an empty buffer.
Decoding from the pointer `MAP_FAILED` is undefined. -/
def Canvas.LoadJPEG (w : World) : Outcome × List Ev :=
  if w.open_fd < 0 then (Outcome.returned none, [])
  else
    let trace := [Ev.open_ok w.open_fd, Ev.mmap w.mmap_ptr]
    if w.mmap_ptr = 0 then (Outcome.returned none, trace)
    else if ¬ w.create_decompress_ok then (Outcome.exited, trace)
    else
      let trace := trace ++ [Ev.jpeg_create_decompress]
      if w.st_size = 0 then (Outcome.exited, trace)
      else if w.mmap_ptr = MAP_FAILED then (Outcome.undefined, trace)
      else
        let l := LoadJPEG.tryBlock w trace
        let l : JpegLocals :=
          if l.thrown then
            match l.surface with
            | some _ => { l with surface := none, trace := l.trace ++ [Ev.surface_destroy] }
            | none => l
          else l
        let trace := l.trace ++ [Ev.jpeg_destroy_decompress]
        let trace := if l.jarr then trace ++ [Ev.delete_rows] else trace
        let trace := trace ++ [Ev.munmap w.mmap_ptr]
        let trace := trace ++ [Ev.close w.open_fd]
        (Outcome.returned l.surface, trace)

/-! ## Vocabulary of the statements -/

/-- Colour of a pattern as `(red, green, blue, alpha)`. -/
def cairo_pattern_t.rgba (p : cairo_pattern_t) : ℚ × ℚ × ℚ × ℚ :=
  (p.red, p.green, p.blue, p.alpha)

/-- Colour that installing pixel `c` as `set_source_rgba(c[1], c[2], c[3], c[0])`
gives the source. -/
def Pixel.rgba (c : Pixel) : ℚ × ℚ × ℚ × ℚ :=
  (clamp01 (c.comp 1), clamp01 (c.comp 2), clamp01 (c.comp 3), clamp01 (c.comp 0))

/-- Rect of the extents `(x1, y1, x2, y2)` a rasterizer query returned, built
as `Flush` builds it. -/
def Rect.ofExtents (ex : ℚ × ℚ × ℚ × ℚ) : Rect :=
  Rect.ofCorners ⟨ex.1, ex.2.1⟩ ⟨ex.2.2.1, ex.2.2.2⟩

/-- The whole surface of a canvas as a rect. -/
def Canvas.rect (c : Canvas) : Rect :=
  { x0 := 0, y0 := 0, x1 := (c.surface.width : ℚ), y1 := (c.surface.height : ℚ) }

/-- The state of a GC, by the parts a setter can name; `rest` is everything no
setter names: the context apart from its font (path, current point, source,
line width, cap and join, commits), the canvas and the dirty rect. -/
inductive Field
  | strokeColor
  | fillColor
  | thickness
  | cap
  | join
  | font
  | rest
deriving DecidableEq, Repr

/-- Two GC states hold the same value in a field. -/
def GC.agree (a b : GC) : Field → Prop
  | .strokeColor => a.strokeColor = b.strokeColor
  | .fillColor => a.fillColor = b.fillColor
  | .thickness => a.thickness = b.thickness
  | .cap => a.cap = b.cap
  | .join => a.join = b.join
  | .font => a.gc.font = b.gc.font
  | .rest => a.gc.path = b.gc.path ∧ a.gc.pen = b.gc.pen ∧ a.gc.source = b.gc.source ∧
      a.gc.line_width = b.gc.line_width ∧ a.gc.line_cap = b.gc.line_cap ∧
      a.gc.line_join = b.gc.line_join ∧ a.gc.drawn = b.gc.drawn ∧ a.gc.target = b.gc.target ∧
      a.canvas = b.canvas ∧ a.extents = b.extents

/-- The fields a setter names. -/
def GC.Setter.names : GC.Setter → List Field
  | .SetStroke _ => [Field.strokeColor]
  | .SetFill _ => [Field.fillColor]
  | .Set _ _ => [Field.strokeColor, Field.fillColor]
  | .SetFont _ _ _ => [Field.font]
  | .SetThickness _ => [Field.thickness]
  | .SetCap _ => [Field.cap]
  | .SetJoin _ => [Field.join]

/-- The named fields hold the setter's new values. -/
def GC.Setter.stored (g : GC) : GC.Setter → Prop
  | .SetStroke c => g.strokeColor = c
  | .SetFill c => g.fillColor = c
  | .Set sc fc => g.strokeColor = sc ∧ g.fillColor = fc
  | .SetFont family slant weight =>
      g.gc.font = some { family := family, slant := GC.slants.get? slant.toNat,
                         weight := GC.weights.get? weight.toNat }
  | .SetThickness t => g.thickness = t
  | .SetCap c => g.cap = c.toNat
  | .SetJoin j => g.join = j.toNat

/-- The rasterizer calls a setter makes after its `Flush`. -/
def GC.Setter.storeCalls : GC.Setter → List Call
  | .SetFont family slant weight =>
      [Call.select_font_face family (GC.slants.get? slant.toNat) (GC.weights.get? weight.toNat)]
  | _ => []

/-! ## A sample rasterizer and sample inputs -/

/-- A rasterizer that knows one shape: for a path of one horizontal segment
`move_to (x0, y); line_to (x1, y)` stroked with butt caps the extents are the
segment widened by half the line width on each side, and the fill extents of
that path are the segment itself; every other path, the empty path included,
has zero extents. -/
def hlineRasterizer : Rasterizer where
  stroke_extents := fun path w cap _ =>
    match path, cap with
    | [PathElt.move_to (Pt.xy x0 y0), PathElt.line_to (Pt.xy x1 y1)],
        some CAIRO_LINE_CAP_BUTT =>
      if y0 = y1 then (min x0 x1, y0 - w / 2, max x0 x1, y0 + w / 2) else (0, 0, 0, 0)
    | _, _ => (0, 0, 0, 0)
  fill_extents := fun _ => (0, 0, 0, 0)

/-- Opaque red, components in the order alpha, red, green, blue. -/
def red : Pixel := { c0 := 255, c1 := 255, c2 := 0, c3 := 0 }

/-- Opaque blue. -/
def blue : Pixel := { c0 := 255, c1 := 0, c2 := 0, c3 := 255 }

/-- Opaque white. -/
def white : Pixel := { c0 := 255, c1 := 255, c2 := 255, c3 := 255 }

/-- Member values of a sample new GC: opaque black colours, thickness 1, cap
and join 0. -/
def u0 : Indeterminate :=
  { strokeColor := { c0 := 255, c1 := 0, c2 := 0, c3 := 0 },
    fillColor := { c0 := 255, c1 := 0, c2 := 0, c3 := 0 },
    thickness := 1, cap := 0, join := 0 }

/-- Opaque black. -/
def black : Pixel := { c0 := 255, c1 := 0, c2 := 0, c3 := 0 }

/-- Member values of a new GC whose storage held 7 and 9 where `cap` and `join`
live. -/
def u7 : Indeterminate :=
  { strokeColor := black, fillColor := black, thickness := 1, cap := 7, join := 9 }

/-- The straight segments of a path, walked from a given current point: each
`line_to` gives the segment from the current point, each `close_path` the
segment back to the start of the sub-path. -/
def segmentsFrom : Option (Pt × Pt) → List PathElt → List (Pt × Pt)
  | _, [] => []
  | _, PathElt.move_to p :: rest => segmentsFrom (some (p, p)) rest
  | none, PathElt.line_to p :: rest => segmentsFrom (some (p, p)) rest
  | some (start, cur), PathElt.line_to p :: rest =>
      (cur, p) :: segmentsFrom (some (start, p)) rest
  | none, PathElt.curve_to p1 _ p3 :: rest => segmentsFrom (some (p1, p3)) rest
  | some (start, _), PathElt.curve_to _ _ p3 :: rest => segmentsFrom (some (start, p3)) rest
  | none, PathElt.arc xc yc r a1 a2 :: rest =>
      segmentsFrom (some (Pt.on_arc xc yc r a1, Pt.on_arc xc yc r a2)) rest
  | some (start, _), PathElt.arc xc yc r _ a2 :: rest =>
      segmentsFrom (some (start, Pt.on_arc xc yc r a2)) rest
  | none, PathElt.close_path :: rest => segmentsFrom none rest
  | some (start, cur), PathElt.close_path :: rest =>
      (cur, start) :: segmentsFrom (some (start, start)) rest

/-- The straight segments a commit strokes. -/
def Draw.strokedSegments : Draw → List (Pt × Pt)
  | .stroke path _ _ _ _ => segmentsFrom none path
  | _ => []

/-- The session `GC; MoveTo(p0); LineTo(p1); S; LineTo(p2); end GC` on a canvas. -/
def midStroke (rz : Rasterizer) (c : Canvas) (u : Indeterminate) (p0 p1 p2 : ℚ × ℚ)
    (S : GC.Setter) : GC.Ended :=
  let g := GC.ctor c u
  let g := g.MoveTo p0.1 p0.2
  let g := g.LineTo p1.1 p1.2
  let g := S.call rz g
  let g := g.LineTo p2.1 p2.2
  g.dtor rz

/-- The state of the session `midStroke` right after the setter. -/
def midStrokeAfterSetter (rz : Rasterizer) (c : Canvas) (u : Indeterminate) (p0 p1 : ℚ × ℚ)
    (S : GC.Setter) : GC :=
  S.call rz (((GC.ctor c u).MoveTo p0.1 p0.2).LineTo p1.1 p1.2)

/-- The path of one horizontal segment from (50, 50) to (60, 50). -/
def hseg : List PathElt :=
  [PathElt.move_to (Pt.xy 50 50), PathElt.line_to (Pt.xy 60 50)]

/-- The state after `GC; Set(cap_butt); Set(join_miter); SetThickness(1);
SetThickness(40); MoveTo(50, 50); LineTo(60, 50)` on a 100 x 100 canvas. -/
def thickLinePending (rz : Rasterizer) (u : Indeterminate) : GC :=
  let g := GC.ctor (Canvas.ctor 100 100) u
  let g := g.SetCap rz Cap.cap_butt
  let g := g.SetJoin rz Join.join_miter
  let g := g.SetThickness rz 1
  let g := g.SetThickness rz 40
  let g := g.MoveTo 50 50
  g.LineTo 60 50

/-- The session `GC; Set(cap_butt); Set(join_miter); SetThickness(1);
SetThickness(40); MoveTo(50, 50); LineTo(60, 50); end GC` on a 100 x 100
canvas. -/
def thickLine (rz : Rasterizer) (u : Indeterminate) : GC.Ended :=
  (thickLinePending rz u).dtor rz

/-- The session `GC; Clear(c); end GC` on a canvas; `none` when `Clear` is
undefined. -/
def clearOnly (rz : Rasterizer) (cv : Canvas) (u : Indeterminate) (c : Pixel) : Option GC.Ended :=
  match (GC.ctor cv u).Clear c with
  | none => none
  | some g => some (g.dtor rz)

/-- The state after `GC; SetStroke(red)` on a 10 x 10 canvas. -/
def afterSetStroke (rz : Rasterizer) (u : Indeterminate) : GC :=
  (GC.ctor (Canvas.ctor 10 10) u).SetStroke rz red

/-- The state after `GC; SetStroke(red); SetThickness(1)` on a 10 x 10 canvas. -/
def afterTwoSetters (rz : Rasterizer) (u : Indeterminate) : GC :=
  (afterSetStroke rz u).SetThickness rz 1

/-- Pattern bookkeeping of a context: identity 0 belongs to the built-in
default source only, and every identity in use is below the next new one. -/
def cairo_t.wf (cr : cairo_t) : Prop :=
  (cr.source.id = 0 → cr.source = cairo_pattern_black) ∧ cr.source.id < cr.fresh

/-- The stored `cap` and `join` are values of their enums. -/
def GC.enumsValid (g : GC) : Prop := g.cap < 3 ∧ g.join < 3

/-- Two strings are equal ignoring ASCII case. -/
def eqIgnoreCase (a b : String) : Prop :=
  a.data.map Char.toLower = b.data.map Char.toLower

instance (a b : String) : Decidable (eqIgnoreCase a b) := by
  unfold eqIgnoreCase; exact inferInstance

/-- The path has a JPEG extension: `.jpg` or `.jpeg`, ignoring case. -/
def hasJpegExt (path : String) : Prop :=
  eqIgnoreCase (extension path) ".jpg" ∨ eqIgnoreCase (extension path) ".jpeg"

instance (path : String) : Decidable (hasJpegExt path) := by
  unfold hasJpegExt; exact inferInstance

/-- What the loader of a recorded call returned. -/
def LoaderCall.result (env : Loaders) : LoaderCall → Option cairo_surface_t
  | .LoadJPEG path => env.LoadJPEG path
  | .cairo_image_surface_create_from_png path => env.cairo_image_surface_create_from_png path

/-- Answers for a file that opens as descriptor 3 and decodes as a 2 x 1 image,
with `mmap` returning the null pointer. -/
def nullMapWorld : World :=
  { open_fd := 3, st_size := 100, mmap_ptr := 0, create_decompress_ok := true,
    read_header := some (2, 1),
    surface_create := fun w h => some { format := CAIRO_FORMAT_RGB24, width := w, height := h },
    new_rows := NewResult.allocated, start_decompress_ok := true,
    read_scanlines := fun _ => some 0, finish_decompress_ok := true }

/-- Answers for an empty file: it opens as descriptor 3, its size is 0 and
`mmap` of length 0 fails with `MAP_FAILED`. -/
def emptyFileWorld : World :=
  { nullMapWorld with st_size := 0, mmap_ptr := MAP_FAILED }

/-- Answers for a file that opens, maps at address 4096 and decodes. -/
def decodableWorld : World :=
  { nullMapWorld with mmap_ptr := 4096 }

/-- Resource events of a trace come in pairs: the descriptor is closed as
often as opened, the mapping unmapped as often as mapped, the decompressor
destroyed as often as created, the row array deleted as often as allocated. -/
def Ev.paired (trace : List Ev) (fd : Int) (ptr : Nat) : Prop :=
  trace.count (Ev.open_ok fd) = trace.count (Ev.close fd) ∧
  trace.count (Ev.mmap ptr) = trace.count (Ev.munmap ptr) ∧
  trace.count Ev.jpeg_create_decompress = trace.count Ev.jpeg_destroy_decompress ∧
  trace.count Ev.new_rows = trace.count Ev.delete_rows

/-! ## Lemmas on the rasterizer model -/

theorem cairo_set_source_rgba_calls (cr : cairo_t) (r g b a : ℚ) :
    (cairo_set_source_rgba cr r g b a).calls = cr.calls ++ [Call.set_source_rgba r g b a] := by
  unfold cairo_set_source_rgba
  dsimp only
  split <;> rfl

theorem cairo_set_source_rgba_rgba (cr : cairo_t) (r g b a : ℚ) :
    (cairo_set_source_rgba cr r g b a).source.rgba = (clamp01 r, clamp01 g, clamp01 b, clamp01 a) := by
  unfold cairo_set_source_rgba cairo_pattern_t.rgba
  dsimp only
  split
  · next h => simp [h.1, h.2.1, h.2.2.1, h.2.2.2]
  · rfl

theorem cairo_set_source_rgba_frame (cr : cairo_t) (r g b a : ℚ) :
    (cairo_set_source_rgba cr r g b a).path = cr.path ∧
    (cairo_set_source_rgba cr r g b a).pen = cr.pen ∧
    (cairo_set_source_rgba cr r g b a).drawn = cr.drawn ∧
    (cairo_set_source_rgba cr r g b a).line_width = cr.line_width ∧
    (cairo_set_source_rgba cr r g b a).line_cap = cr.line_cap ∧
    (cairo_set_source_rgba cr r g b a).line_join = cr.line_join ∧
    (cairo_set_source_rgba cr r g b a).font = cr.font ∧
    (cairo_set_source_rgba cr r g b a).target = cr.target := by
  unfold cairo_set_source_rgba
  dsimp only
  split <;> simp

theorem Rect.union_contains_left (a b : Rect) : (a.union b).contains a := by
  unfold Rect.union Rect.contains
  exact ⟨min_le_left _ _, min_le_left _ _, le_max_left _ _, le_max_left _ _⟩

theorem Rect.union_contains_right (a b : Rect) : (a.union b).contains b := by
  unfold Rect.union Rect.contains
  exact ⟨min_le_right _ _, min_le_right _ _, le_max_right _ _, le_max_right _ _⟩

/-! ## Flush -/

theorem Flush_calls (rz : Rasterizer) (g : GC) :
    (g.Flush rz).gc.calls = g.gc.calls ++
      [Call.stroke_extents,
       Call.set_source_rgba (g.fillColor.comp 1) (g.fillColor.comp 2) (g.fillColor.comp 3)
         (g.fillColor.comp 0),
       Call.fill_preserve,
       Call.set_source_rgba (g.strokeColor.comp 1) (g.strokeColor.comp 2) (g.strokeColor.comp 3)
         (g.strokeColor.comp 0),
       Call.set_line_width g.thickness,
       Call.set_line_cap (GC.caps.get? g.cap),
       Call.set_line_join (GC.joins.get? g.join),
       Call.stroke] := by
  simp [GC.Flush, cairo_stroke, cairo_set_line_join, cairo_set_line_cap, cairo_set_line_width,
    cairo_fill_preserve, cairo_stroke_extents, cairo_set_source_rgba_calls]

theorem Flush_drawn (rz : Rasterizer) (g : GC) :
    ∃ F S : cairo_pattern_t,
      (g.Flush rz).gc.drawn = g.gc.drawn ++
        [Draw.fill g.gc.path F,
         Draw.stroke g.gc.path S g.thickness (GC.caps.get? g.cap) (GC.joins.get? g.join)] ∧
      F.rgba = g.fillColor.rgba ∧ S.rgba = g.strokeColor.rgba := by
  refine ⟨(cairo_set_source_rgba (cairo_stroke_extents rz g.gc).2 (g.fillColor.comp 1)
      (g.fillColor.comp 2) (g.fillColor.comp 3) (g.fillColor.comp 0)).source,
    (cairo_set_source_rgba (cairo_fill_preserve (cairo_set_source_rgba
      (cairo_stroke_extents rz g.gc).2 (g.fillColor.comp 1)
      (g.fillColor.comp 2) (g.fillColor.comp 3) (g.fillColor.comp 0))) (g.strokeColor.comp 1)
      (g.strokeColor.comp 2) (g.strokeColor.comp 3) (g.strokeColor.comp 0)).source, ?_, ?_, ?_⟩
  · simp [GC.Flush, cairo_stroke, cairo_set_line_join, cairo_set_line_cap, cairo_set_line_width,
      cairo_fill_preserve, cairo_stroke_extents, cairo_set_source_rgba_frame]
  · rw [cairo_set_source_rgba_rgba]; rfl
  · rw [cairo_set_source_rgba_rgba]; rfl

theorem Flush_frame (rz : Rasterizer) (g : GC) :
    (g.Flush rz).strokeColor = g.strokeColor ∧ (g.Flush rz).fillColor = g.fillColor ∧
    (g.Flush rz).thickness = g.thickness ∧ (g.Flush rz).cap = g.cap ∧
    (g.Flush rz).join = g.join ∧ (g.Flush rz).canvas = g.canvas := by
  simp [GC.Flush]

theorem Flush_path (rz : Rasterizer) (g : GC) :
    (g.Flush rz).gc.path = [] ∧ (g.Flush rz).gc.pen = none := by
  simp [GC.Flush, cairo_stroke]

theorem Flush_extents (rz : Rasterizer) (g : GC) :
    (g.Flush rz).extents = g.extents.union (Rect.ofExtents
      (rz.stroke_extents g.gc.path g.gc.line_width g.gc.line_cap g.gc.line_join)) := by
  simp [GC.Flush, cairo_stroke_extents, Rect.ofExtents]


theorem Flush_line (rz : Rasterizer) (g : GC) :
    (g.Flush rz).gc.line_width = g.thickness ∧ (g.Flush rz).gc.line_cap = GC.caps.get? g.cap ∧
    (g.Flush rz).gc.line_join = GC.joins.get? g.join ∧ (g.Flush rz).gc.font = g.gc.font ∧
    (g.Flush rz).gc.target = g.gc.target := by
  simp [GC.Flush, cairo_stroke, cairo_set_line_join, cairo_set_line_cap, cairo_set_line_width,
    cairo_fill_preserve, cairo_stroke_extents, cairo_set_source_rgba_frame]

/-! ## Claims on Flush and the state setters -/

/-- C9: `Flush` makes its rasterizer calls in the order stroke extents, fill
colour as source, fill preserving the path, stroke colour as source, line
width, cap, join, stroke; each colour `c` is installed as
`set_source_rgba(c[1], c[2], c[3], c[0])`; the stroke extents of the pending
path are unioned into the dirty rect; the path is filled with the fill colour
and stroked with the stroke colour, thickness, cap and join; afterwards the
path buffer is empty, the five style fields are unchanged and the dirty rect
contains the dirty rect of before. -/
theorem C9_Flush_order_and_effect (rz : Rasterizer) (g : GC) :
    (g.Flush rz).gc.calls = g.gc.calls ++
      [Call.stroke_extents,
       Call.set_source_rgba (g.fillColor.comp 1) (g.fillColor.comp 2) (g.fillColor.comp 3)
         (g.fillColor.comp 0),
       Call.fill_preserve,
       Call.set_source_rgba (g.strokeColor.comp 1) (g.strokeColor.comp 2) (g.strokeColor.comp 3)
         (g.strokeColor.comp 0),
       Call.set_line_width g.thickness,
       Call.set_line_cap (GC.caps.get? g.cap),
       Call.set_line_join (GC.joins.get? g.join),
       Call.stroke] ∧
    (g.Flush rz).extents = g.extents.union (Rect.ofExtents
      (rz.stroke_extents g.gc.path g.gc.line_width g.gc.line_cap g.gc.line_join)) ∧
    (∃ F S : cairo_pattern_t,
      (g.Flush rz).gc.drawn = g.gc.drawn ++
        [Draw.fill g.gc.path F,
         Draw.stroke g.gc.path S g.thickness (GC.caps.get? g.cap) (GC.joins.get? g.join)] ∧
      F.rgba = g.fillColor.rgba ∧ S.rgba = g.strokeColor.rgba) ∧
    (g.Flush rz).gc.path = [] ∧
    (g.Flush rz).strokeColor = g.strokeColor ∧ (g.Flush rz).fillColor = g.fillColor ∧
    (g.Flush rz).thickness = g.thickness ∧ (g.Flush rz).cap = g.cap ∧
    (g.Flush rz).join = g.join ∧
    (g.Flush rz).extents.contains g.extents := by
  refine ⟨Flush_calls rz g, Flush_extents rz g, Flush_drawn rz g, (Flush_path rz g).1,
    (Flush_frame rz g).1, (Flush_frame rz g).2.1, (Flush_frame rz g).2.2.1,
    (Flush_frame rz g).2.2.2.1, (Flush_frame rz g).2.2.2.2.1, ?_⟩
  rw [Flush_extents]
  exact Rect.union_contains_left _ _

theorem Setter_call_eq (rz : Rasterizer) (g : GC) (s : GC.Setter) :
    s.call rz g = s.store (g.Flush rz) := by
  cases s <;> rfl

theorem Setter_store_drawn (g : GC) (s : GC.Setter) : (s.store g).gc.drawn = g.gc.drawn := by
  cases s <;> simp [GC.Setter.store, cairo_select_font_face]

theorem Setter_store_calls (g : GC) (s : GC.Setter) :
    (s.store g).gc.calls = g.gc.calls ++ s.storeCalls := by
  cases s <;> simp [GC.Setter.store, GC.Setter.storeCalls, cairo_select_font_face]

theorem Setter_store_stored (g : GC) (s : GC.Setter) : s.stored (s.store g) := by
  cases s <;> simp [GC.Setter.store, GC.Setter.stored, cairo_select_font_face]

theorem Setter_store_agree (g : GC) (s : GC.Setter) (f : Field) (h : f ∉ s.names) :
    (s.store g).agree g f := by
  cases s <;> cases f <;>
    simp_all [GC.Setter.store, GC.Setter.names, GC.agree, cairo_select_font_face]

/-- C1: each of the seven state setters is `Flush` on the state of before the
call followed by the store: the calls of that `Flush` come first, the pending
path is filled with the old fill colour and stroked with the old stroke
colour, thickness, cap and join and these are the only commits, then the named
fields take the new values; every field the setter does not name is as `Flush`
left it. -/
theorem C1_setter_flushes_then_stores (rz : Rasterizer) (g : GC) (s : GC.Setter) :
    s.call rz g = s.store (g.Flush rz) ∧
    (s.call rz g).gc.calls = (g.Flush rz).gc.calls ++ s.storeCalls ∧
    (∃ F S : cairo_pattern_t,
      (s.call rz g).gc.drawn = g.gc.drawn ++
        [Draw.fill g.gc.path F,
         Draw.stroke g.gc.path S g.thickness (GC.caps.get? g.cap) (GC.joins.get? g.join)] ∧
      F.rgba = g.fillColor.rgba ∧ S.rgba = g.strokeColor.rgba) ∧
    s.stored (s.call rz g) ∧
    (∀ f : Field, f ∉ s.names → (s.call rz g).agree (g.Flush rz) f) := by
  rw [Setter_call_eq]
  refine ⟨rfl, Setter_store_calls _ s, ?_, Setter_store_stored _ s,
    fun f hf => Setter_store_agree _ s f hf⟩
  obtain ⟨F, S, hd, hF, hS⟩ := Flush_drawn rz g
  exact ⟨F, S, by rw [Setter_store_drawn, hd], hF, hS⟩


/-! ## Claims on the Path scope and on drawing across a setter -/

/-- C8: constructing a Path scope runs `Flush` on the parent GC, which commits
the accumulated path under the state in force, and then leaves an empty path
with no current point; destroying the scope only calls `close_path`: a pending
sub-path gets its current point moved to its start point and the closing
element appended, no `Flush` runs, no commit is made and no GC field or style
of the context changes. -/
theorem C8_path_scope (rz : Rasterizer) (g : GC) :
    (GC.Path.ctor rz g).gc.calls = (g.Flush rz).gc.calls ++ [Call.new_path] ∧
    (∃ F S : cairo_pattern_t,
      (GC.Path.ctor rz g).gc.drawn = g.gc.drawn ++
        [Draw.fill g.gc.path F,
         Draw.stroke g.gc.path S g.thickness (GC.caps.get? g.cap) (GC.joins.get? g.join)] ∧
      F.rgba = g.fillColor.rgba ∧ S.rgba = g.strokeColor.rgba) ∧
    (GC.Path.ctor rz g).gc.path = [] ∧ (GC.Path.ctor rz g).gc.pen = none ∧
    (GC.Path.dtor g).gc.calls = g.gc.calls ++ [Call.close_path] ∧
    (GC.Path.dtor g).gc.pen = g.gc.pen.map (fun sp => (sp.1, sp.1)) ∧
    (GC.Path.dtor g).gc.path =
      (if g.gc.pen.isSome then g.gc.path ++ [PathElt.close_path] else g.gc.path) ∧
    (GC.Path.dtor g).gc.drawn = g.gc.drawn ∧
    (GC.Path.dtor g).gc.source = g.gc.source ∧
    (GC.Path.dtor g).gc.line_width = g.gc.line_width ∧
    (GC.Path.dtor g).gc.line_cap = g.gc.line_cap ∧
    (GC.Path.dtor g).gc.line_join = g.gc.line_join ∧
    (GC.Path.dtor g).gc.font = g.gc.font ∧
    (GC.Path.dtor g).strokeColor = g.strokeColor ∧ (GC.Path.dtor g).fillColor = g.fillColor ∧
    (GC.Path.dtor g).thickness = g.thickness ∧ (GC.Path.dtor g).cap = g.cap ∧
    (GC.Path.dtor g).join = g.join ∧ (GC.Path.dtor g).extents = g.extents ∧
    (GC.Path.dtor g).canvas = g.canvas := by
  refine ⟨by simp [GC.Path.ctor, cairo_new_path], ?_, by simp [GC.Path.ctor, cairo_new_path],
    by simp [GC.Path.ctor, cairo_new_path], ?_⟩
  · obtain ⟨F, S, hd, hF, hS⟩ := Flush_drawn rz g
    exact ⟨F, S, by simpa [GC.Path.ctor, cairo_new_path] using hd, hF, hS⟩
  · unfold GC.Path.dtor cairo_close_path
    cases h : g.gc.pen with
    | none => simp [h]
    | some sp => obtain ⟨a, b⟩ := sp; simp [h]

theorem midStroke_before_setter (c : Canvas) (u : Indeterminate) (p0 p1 : ℚ × ℚ) :
    (((GC.ctor c u).MoveTo p0.1 p0.2).LineTo p1.1 p1.2).gc.path =
      [PathElt.move_to (Pt.xy p0.1 p0.2), PathElt.line_to (Pt.xy p1.1 p1.2)] ∧
    (((GC.ctor c u).MoveTo p0.1 p0.2).LineTo p1.1 p1.2).gc.drawn = [] ∧
    (((GC.ctor c u).MoveTo p0.1 p0.2).LineTo p1.1 p1.2).thickness = u.thickness ∧
    (((GC.ctor c u).MoveTo p0.1 p0.2).LineTo p1.1 p1.2).cap = u.cap ∧
    (((GC.ctor c u).MoveTo p0.1 p0.2).LineTo p1.1 p1.2).join = u.join ∧
    (((GC.ctor c u).MoveTo p0.1 p0.2).LineTo p1.1 p1.2).fillColor = u.fillColor ∧
    (((GC.ctor c u).MoveTo p0.1 p0.2).LineTo p1.1 p1.2).strokeColor = u.strokeColor := by
  simp [GC.ctor, GC.MoveTo, GC.LineTo, cairo_create, cairo_move_to, cairo_line_to]

theorem Setter_call_path (rz : Rasterizer) (g : GC) (s : GC.Setter) :
    (s.call rz g).gc.path = [] ∧ (s.call rz g).gc.pen = none := by
  have h := Setter_store_agree (g.Flush rz) s Field.rest (by cases s <;> simp [GC.Setter.names])
  rw [Setter_call_eq]
  simp only [GC.agree] at h
  rw [h.1, h.2.1]
  exact Flush_path rz g

theorem LineTo_after_flush (g : GC) (x y : ℚ) (hp : g.gc.path = []) (hn : g.gc.pen = none) :
    (g.LineTo x y).gc.path = [PathElt.move_to (Pt.xy x y)] ∧
    (g.LineTo x y).gc.drawn = g.gc.drawn ∧ (g.LineTo x y).thickness = g.thickness ∧
    (g.LineTo x y).cap = g.cap ∧ (g.LineTo x y).join = g.join ∧
    (g.LineTo x y).fillColor = g.fillColor ∧ (g.LineTo x y).strokeColor = g.strokeColor := by
  simp [GC.LineTo, cairo_line_to, hp, hn]

theorem dtor_drawn (rz : Rasterizer) (g : GC) : (g.dtor rz).drawn = (g.Flush rz).gc.drawn := by
  simp [GC.dtor, cairo_destroy]

theorem midStroke_commits (rz : Rasterizer) (c : Canvas) (u : Indeterminate)
    (p0 p1 p2 : ℚ × ℚ) (S : GC.Setter) :
    ∃ F1 S1 F2 S2 : cairo_pattern_t,
      (midStroke rz c u p0 p1 p2 S).drawn =
        [Draw.fill [PathElt.move_to (Pt.xy p0.1 p0.2), PathElt.line_to (Pt.xy p1.1 p1.2)] F1,
         Draw.stroke [PathElt.move_to (Pt.xy p0.1 p0.2), PathElt.line_to (Pt.xy p1.1 p1.2)] S1
           u.thickness (GC.caps.get? u.cap) (GC.joins.get? u.join),
         Draw.fill [PathElt.move_to (Pt.xy p2.1 p2.2)] F2,
         Draw.stroke [PathElt.move_to (Pt.xy p2.1 p2.2)] S2
           (midStrokeAfterSetter rz c u p0 p1 S).thickness
           (GC.caps.get? (midStrokeAfterSetter rz c u p0 p1 S).cap)
           (GC.joins.get? (midStrokeAfterSetter rz c u p0 p1 S).join)] ∧
      F1.rgba = u.fillColor.rgba ∧ S1.rgba = u.strokeColor.rgba ∧
      F2.rgba = (midStrokeAfterSetter rz c u p0 p1 S).fillColor.rgba ∧
      S2.rgba = (midStrokeAfterSetter rz c u p0 p1 S).strokeColor.rgba ∧
      S.stored (midStrokeAfterSetter rz c u p0 p1 S) ∧
      (midStroke rz c u p0 p1 p2 S).drawn.map Draw.strokedSegments =
        [[], [(Pt.xy p0.1 p0.2, Pt.xy p1.1 p1.2)], [], []] := by
  obtain ⟨hpath, hdrawn, ht, hc, hj, hf, hs⟩ := midStroke_before_setter c u p0 p1
  obtain ⟨F1, S1, hd1, hF1, hS1⟩ := Flush_drawn rz (((GC.ctor c u).MoveTo p0.1 p0.2).LineTo p1.1 p1.2)
  have hcall := Setter_call_eq rz (((GC.ctor c u).MoveTo p0.1 p0.2).LineTo p1.1 p1.2) S
  have hmid : (midStrokeAfterSetter rz c u p0 p1 S).gc.drawn =
      [Draw.fill [PathElt.move_to (Pt.xy p0.1 p0.2), PathElt.line_to (Pt.xy p1.1 p1.2)] F1,
       Draw.stroke [PathElt.move_to (Pt.xy p0.1 p0.2), PathElt.line_to (Pt.xy p1.1 p1.2)] S1
         u.thickness (GC.caps.get? u.cap) (GC.joins.get? u.join)] := by
    unfold midStrokeAfterSetter
    rw [hcall, Setter_store_drawn, hd1, hdrawn, hpath, ht, hc, hj]
    rfl
  obtain ⟨hp0, hn0⟩ := Setter_call_path rz (((GC.ctor c u).MoveTo p0.1 p0.2).LineTo p1.1 p1.2) S
  obtain ⟨lp, ld, lt, lc, lj, lf, ls⟩ :=
    LineTo_after_flush (midStrokeAfterSetter rz c u p0 p1 S) p2.1 p2.2 hp0 hn0
  obtain ⟨F2, S2, hd2, hF2, hS2⟩ :=
    Flush_drawn rz ((midStrokeAfterSetter rz c u p0 p1 S).LineTo p2.1 p2.2)
  have hfinal : (midStroke rz c u p0 p1 p2 S).drawn =
      ((midStrokeAfterSetter rz c u p0 p1 S).LineTo p2.1 p2.2).gc.drawn ++
        [Draw.fill ((midStrokeAfterSetter rz c u p0 p1 S).LineTo p2.1 p2.2).gc.path F2,
         Draw.stroke ((midStrokeAfterSetter rz c u p0 p1 S).LineTo p2.1 p2.2).gc.path S2
           ((midStrokeAfterSetter rz c u p0 p1 S).LineTo p2.1 p2.2).thickness
           (GC.caps.get? ((midStrokeAfterSetter rz c u p0 p1 S).LineTo p2.1 p2.2).cap)
           (GC.joins.get? ((midStrokeAfterSetter rz c u p0 p1 S).LineTo p2.1 p2.2).join)] := by
    rw [← hd2, ← dtor_drawn]
    rfl
  rw [lp, ld, lt, lc, lj, hmid] at hfinal
  refine ⟨F1, S1, F2, S2, hfinal, ?_, ?_, ?_, ?_, ?_, ?_⟩
  · rw [hF1, hf]
  · rw [hS1, hs]
  · rw [hF2, lf]
  · rw [hS2, ls]
  · unfold midStrokeAfterSetter
    rw [hcall]
    exact Setter_store_stored _ S
  · rw [hfinal]
    simp [Draw.strokedSegments, segmentsFrom]

/-- C6, as amended: in the session `MoveTo(p0); LineTo(p1); S; LineTo(p2); end
GC` the commits are, in order, the fill and the stroke of the path `p0 - p1`
with the fill colour, stroke colour, thickness, cap and join of before `S`,
then the fill and the stroke of a path that holds only the point `p2`, with
the state of after `S`; so the segment `p0 - p1` is stroked once, with the old
state, and the last stroke has no segment. -/
theorem C6_state_mid_stroke (rz : Rasterizer) (c : Canvas) (u : Indeterminate)
    (p0 p1 p2 : ℚ × ℚ) (S : GC.Setter) :
    ∃ F1 S1 F2 S2 : cairo_pattern_t,
      (midStroke rz c u p0 p1 p2 S).drawn =
        [Draw.fill [PathElt.move_to (Pt.xy p0.1 p0.2), PathElt.line_to (Pt.xy p1.1 p1.2)] F1,
         Draw.stroke [PathElt.move_to (Pt.xy p0.1 p0.2), PathElt.line_to (Pt.xy p1.1 p1.2)] S1
           u.thickness (GC.caps.get? u.cap) (GC.joins.get? u.join),
         Draw.fill [PathElt.move_to (Pt.xy p2.1 p2.2)] F2,
         Draw.stroke [PathElt.move_to (Pt.xy p2.1 p2.2)] S2
           (midStrokeAfterSetter rz c u p0 p1 S).thickness
           (GC.caps.get? (midStrokeAfterSetter rz c u p0 p1 S).cap)
           (GC.joins.get? (midStrokeAfterSetter rz c u p0 p1 S).join)] ∧
      F1.rgba = u.fillColor.rgba ∧ S1.rgba = u.strokeColor.rgba ∧
      F2.rgba = (midStrokeAfterSetter rz c u p0 p1 S).fillColor.rgba ∧
      S2.rgba = (midStrokeAfterSetter rz c u p0 p1 S).strokeColor.rgba ∧
      S.stored (midStrokeAfterSetter rz c u p0 p1 S) ∧
      (midStroke rz c u p0 p1 p2 S).drawn.map Draw.strokedSegments =
        [[], [(Pt.xy p0.1 p0.2, Pt.xy p1.1 p1.2)], [], []] :=
  midStroke_commits rz c u p0 p1 p2 S

/-- C6, the claim as stated fails: in the session `Canvas(10, 10); GC;
MoveTo(0, 0); LineTo(5, 5); SetStroke(red); LineTo(9, 9); end GC` no commit
strokes the segment from (5, 5) to (9, 9). -/
theorem C6_second_segment_not_drawn :
    ¬ ∃ d ∈ (midStroke hlineRasterizer (Canvas.ctor 10 10) u0 (0, 0) (5, 5) (9, 9)
        (GC.Setter.SetStroke red)).drawn,
      (Pt.xy 5 5, Pt.xy 9 9) ∈ d.strokedSegments := by
  obtain ⟨F1, S1, F2, S2, -, -, -, -, -, -, hseg⟩ :=
    midStroke_commits hlineRasterizer (Canvas.ctor 10 10) u0 (0, 0) (5, 5) (9, 9)
      (GC.Setter.SetStroke red)
  rintro ⟨d, hmem, hin⟩
  have hm : d.strokedSegments ∈ (midStroke hlineRasterizer (Canvas.ctor 10 10) u0 (0, 0) (5, 5)
        (9, 9) (GC.Setter.SetStroke red)).drawn.map Draw.strokedSegments :=
    List.mem_map_of_mem _ hmem
  rw [hseg] at hm
  simp only [List.mem_cons, List.mem_singleton, List.not_mem_nil, or_false] at hm
  rcases hm with h | h | h | h <;> rw [h] at hin <;> simp at hin

/-! ## Claims on Clear and on the dirty rect -/

theorem cairo_create_wf (t : cairo_surface_t) : (cairo_create t).wf := by
  simp [cairo_t.wf, cairo_create, cairo_pattern_black]

theorem cairo_set_source_rgba_wf (cr : cairo_t) (r g b a : ℚ) (h : cr.wf) :
    (cairo_set_source_rgba cr r g b a).wf := by
  unfold cairo_set_source_rgba cairo_t.wf
  dsimp only
  split
  · exact h
  · refine ⟨fun h0 => ?_, Nat.lt_succ_self _⟩
    have := h.2
    simp only at h0
    omega

theorem cairo_t.wf_congr (a b : cairo_t) (hs : a.source = b.source) (hf : a.fresh = b.fresh)
    (h : b.wf) : a.wf := by
  unfold cairo_t.wf at *
  rw [hs, hf]
  exact h

theorem cairo_fill_preserve_wf (cr : cairo_t) (h : cr.wf) : (cairo_fill_preserve cr).wf :=
  cairo_t.wf_congr _ cr rfl rfl h

theorem cairo_stroke_extents_wf (rz : Rasterizer) (cr : cairo_t) (h : cr.wf) :
    (cairo_stroke_extents rz cr).2.wf :=
  cairo_t.wf_congr _ cr rfl rfl h

theorem Flush_gc_source (rz : Rasterizer) (g : GC) :
    (g.Flush rz).gc.source = (cairo_set_source_rgba (cairo_fill_preserve (cairo_set_source_rgba
      (cairo_stroke_extents rz g.gc).2 (g.fillColor.comp 1) (g.fillColor.comp 2)
      (g.fillColor.comp 3) (g.fillColor.comp 0))) (g.strokeColor.comp 1) (g.strokeColor.comp 2)
      (g.strokeColor.comp 3) (g.strokeColor.comp 0)).source ∧
    (g.Flush rz).gc.fresh = (cairo_set_source_rgba (cairo_fill_preserve (cairo_set_source_rgba
      (cairo_stroke_extents rz g.gc).2 (g.fillColor.comp 1) (g.fillColor.comp 2)
      (g.fillColor.comp 3) (g.fillColor.comp 0))) (g.strokeColor.comp 1) (g.strokeColor.comp 2)
      (g.strokeColor.comp 3) (g.strokeColor.comp 0)).fresh := by
  simp only [GC.Flush, cairo_stroke, cairo_set_line_join, cairo_set_line_cap, cairo_set_line_width,
    and_self]

theorem Flush_wf (rz : Rasterizer) (g : GC) (h : g.gc.wf) : (g.Flush rz).gc.wf := by
  refine cairo_t.wf_congr _ _ (Flush_gc_source rz g).1 (Flush_gc_source rz g).2 ?_
  exact cairo_set_source_rgba_wf _ _ _ _ _ (cairo_fill_preserve_wf _
    (cairo_set_source_rgba_wf _ _ _ _ _ (cairo_stroke_extents_wf rz _ h)))

theorem Flush_source (rz : Rasterizer) (g : GC) :
    (g.Flush rz).gc.source.rgba = g.strokeColor.rgba := by
  rw [(Flush_gc_source rz g).1, cairo_set_source_rgba_rgba]
  rfl

theorem Clear_none (g : GC) (c : Pixel) (h0 : g.gc.source.id ≠ 0)
    (hlt : g.gc.source.id < g.gc.fresh) (hc : g.gc.source.rgba ≠ c.rgba) :
    g.Clear c = none := by
  have hne : ¬ (g.gc.source.red = clamp01 (c.comp 1) ∧ g.gc.source.green = clamp01 (c.comp 2) ∧
      g.gc.source.blue = clamp01 (c.comp 3) ∧ g.gc.source.alpha = clamp01 (c.comp 0)) := by
    intro h
    apply hc
    simp [cairo_pattern_t.rgba, Pixel.rgba, h.1, h.2.1, h.2.2.1, h.2.2.2]
  have hid : g.gc.source.id ≠ g.gc.fresh := Nat.ne_of_lt hlt
  simp [GC.Clear, cairo_get_source, cairo_set_source_rgba, cairo_paint, cairo_set_source,
    cairo_t.live, hne, h0, hid]

theorem Clear_some (g g1 : GC) (c : Pixel) (h : g.Clear c = some g1) :
    g1.gc.source = g.gc.source ∧ g1.gc.path = g.gc.path ∧ g1.gc.pen = g.gc.pen ∧
    g1.gc.calls = g.gc.calls ++ [Call.get_source,
      Call.set_source_rgba (c.comp 1) (c.comp 2) (c.comp 3) (c.comp 0), Call.paint,
      Call.set_source g.gc.source] ∧
    (∃ P : cairo_pattern_t, g1.gc.drawn = g.gc.drawn ++ [Draw.paint P] ∧ P.rgba = c.rgba) ∧
    g1.strokeColor = g.strokeColor ∧ g1.fillColor = g.fillColor ∧ g1.thickness = g.thickness ∧
    g1.cap = g.cap ∧ g1.join = g.join ∧ g1.extents = g.extents ∧ g1.canvas = g.canvas ∧
    g1.gc.line_width = g.gc.line_width ∧ g1.gc.line_cap = g.gc.line_cap ∧
    g1.gc.line_join = g.gc.line_join := by
  unfold GC.Clear at h
  simp only [cairo_get_source] at h
  unfold cairo_set_source at h
  split at h
  · exact absurd h (by simp)
  · next gc1 heq =>
    split at heq
    · simp only [Option.some.injEq] at heq h
      subst heq
      subst h
      refine ⟨rfl, ?_, ?_, ?_, ?_, rfl, rfl, rfl, rfl, rfl, rfl, rfl, ?_, ?_, ?_⟩
      · simp [cairo_paint, cairo_set_source_rgba_frame]
      · simp [cairo_paint, cairo_set_source_rgba_frame]
      · simp [cairo_paint, cairo_set_source_rgba_calls]
      · refine ⟨(cairo_set_source_rgba { g.gc with calls := g.gc.calls ++ [Call.get_source] }
          (c.comp 1) (c.comp 2) (c.comp 3) (c.comp 0)).source, ?_, ?_⟩
        · simp [cairo_paint, cairo_set_source_rgba_frame]
        · rw [cairo_set_source_rgba_rgba]; rfl
      · simp [cairo_paint, cairo_set_source_rgba_frame]
      · simp [cairo_paint, cairo_set_source_rgba_frame]
      · simp [cairo_paint, cairo_set_source_rgba_frame]
    · exact absurd heq (by simp)

theorem Clear_default (g : GC) (c : Pixel) (h : g.gc.source.id = 0) : (g.Clear c).isSome := by
  simp [GC.Clear, cairo_get_source, cairo_set_source, cairo_t.live, h]

theorem red_ne_white : red.rgba ≠ white.rgba := by
  simp [Pixel.rgba, red, white, Pixel.comp, clamp01]

theorem red_ne_black : red.rgba ≠ cairo_pattern_black.rgba := by
  simp [Pixel.rgba, red, cairo_pattern_black, cairo_pattern_t.rgba, Pixel.comp, clamp01]

/-- C7, evaluated at `GC; SetStroke(red); SetThickness(1); Clear(white)`: after
the two setters the installed source is the red pattern that the context
alone owns; `Clear` keeps a bare handle to it, installs white (which destroys
the red pattern), paints, and hands the stale handle back to
`cairo_set_source`: the source of before `Clear` is not reinstalled. -/
theorem C7_Clear_restores_stale_source (rz : Rasterizer) (u : Indeterminate) :
    (afterTwoSetters rz u).gc.source.rgba = red.rgba ∧
    (afterTwoSetters rz u).gc.source.id ≠ 0 ∧
    (afterTwoSetters rz u).Clear white = none := by
  have hwf : (afterTwoSetters rz u).gc.wf :=
    Flush_wf rz _ (Flush_wf rz _ (cairo_create_wf _))
  have hsrc : (afterTwoSetters rz u).gc.source.rgba = red.rgba :=
    Flush_source rz (afterSetStroke rz u)
  have hid : (afterTwoSetters rz u).gc.source.id ≠ 0 := by
    intro h0
    have := hwf.1 h0
    rw [this] at hsrc
    exact red_ne_black hsrc.symm
  refine ⟨hsrc, hid, Clear_none _ _ hid hwf.2 ?_⟩
  rw [hsrc]
  exact red_ne_white

theorem dtor_updated (rz : Rasterizer) (g : GC) : (g.dtor rz).updated = (g.Flush rz).extents := by
  simp [GC.dtor]

theorem hlineRasterizer_empty (w : ℚ) (c : Option cairo_line_cap_t)
    (j : Option cairo_line_join_t) : hlineRasterizer.stroke_extents [] w c j = (0, 0, 0, 0) := by
  simp [hlineRasterizer]

theorem hlineRasterizer_hseg (w : ℚ) (j : Option cairo_line_join_t) :
    hlineRasterizer.stroke_extents hseg w (some CAIRO_LINE_CAP_BUTT) j =
      (50, 50 - w / 2, 60, 50 + w / 2) := by
  simp [hlineRasterizer, hseg]
  norm_num

/-- C3, evaluated at `Canvas(10, 10); GC; Clear(c); end GC` for every colour
`c` and every rasterizer that reports zero extents for an empty path: `Clear`
paints the surface with `c`, yet the rect passed to `OnCanvasUpdated` is the
empty rect, which does not cover the 10 x 10 surface. -/
theorem C3_Clear_missing_from_dirty_rect (rz : Rasterizer) (u : Indeterminate) (c : Pixel)
    (h0 : ∀ w cap join, rz.stroke_extents [] w cap join = (0, 0, 0, 0)) :
    ∃ e : GC.Ended, clearOnly rz (Canvas.ctor 10 10) u c = some e ∧
      (∃ P : cairo_pattern_t, Draw.paint P ∈ e.drawn ∧ P.rgba = c.rgba) ∧
      e.updated = Rect.empty ∧
      ¬ e.updated.contains (Canvas.rect (Canvas.ctor 10 10)) := by
  have hsome := Clear_default (GC.ctor (Canvas.ctor 10 10) u) c rfl
  obtain ⟨g1, hg1⟩ := Option.isSome_iff_exists.mp hsome
  obtain ⟨-, hpath, -, -, ⟨P, hP, hPc⟩, -, -, -, -, -, hext, -, -, -, -⟩ :=
    Clear_some _ g1 c hg1
  have hupd : (g1.dtor rz).updated = Rect.empty := by
    rw [dtor_updated, Flush_extents, hext, hpath]
    have : (GC.ctor (Canvas.ctor 10 10) u).gc.path = [] := rfl
    rw [this, h0]
    simp [GC.ctor, Rect.empty, Rect.union, Rect.ofExtents, Rect.ofCorners]
  refine ⟨g1.dtor rz, by simp [clearOnly, hg1], ⟨P, ?_, hPc⟩, hupd, ?_⟩
  · obtain ⟨F, S, hd, -, -⟩ := Flush_drawn rz g1
    rw [dtor_drawn, hd, hP]
    simp
  · rw [hupd]
    simp [Rect.contains, Rect.empty, Canvas.rect, Canvas.ctor]

/-- C3, the evaluation holds for the sample rasterizer, the sample member
values and white. -/
theorem C3_Clear_missing_from_dirty_rect_witness :
    ∃ e : GC.Ended, clearOnly hlineRasterizer (Canvas.ctor 10 10) u0 white = some e ∧
      (∃ P : cairo_pattern_t, Draw.paint P ∈ e.drawn ∧ P.rgba = white.rgba) ∧
      e.updated = Rect.empty ∧
      ¬ e.updated.contains (Canvas.rect (Canvas.ctor 10 10)) :=
  C3_Clear_missing_from_dirty_rect hlineRasterizer u0 white hlineRasterizer_empty

theorem thickLinePending_state (rz : Rasterizer) (u : Indeterminate)
    (h0 : ∀ w c j, rz.stroke_extents [] w c j = (0, 0, 0, 0)) :
    (thickLinePending rz u).gc.path = hseg ∧ (thickLinePending rz u).gc.line_width = 1 ∧
    (thickLinePending rz u).gc.line_cap = some CAIRO_LINE_CAP_BUTT ∧
    (thickLinePending rz u).gc.line_join = some CAIRO_LINE_JOIN_MITER ∧
    (thickLinePending rz u).thickness = 40 ∧ (thickLinePending rz u).cap = 0 ∧
    (thickLinePending rz u).join = 0 ∧ (thickLinePending rz u).strokeColor = u.strokeColor ∧
    (thickLinePending rz u).extents = Rect.empty := by
  have hz : Rect.empty.union (Rect.ofExtents (0 : ℚ × ℚ × ℚ × ℚ)) = Rect.empty := by
    simp [Rect.empty, Rect.union, Rect.ofExtents, Rect.ofCorners]
  have h0z : ∀ w c j, rz.stroke_extents [] w c j = 0 := h0
  simp [thickLinePending, GC.LineTo, GC.MoveTo, GC.SetThickness, GC.SetJoin, GC.SetCap,
    Flush_extents, Flush_line, Flush_frame, Flush_path, cairo_move_to, cairo_line_to, h0z, hz,
    GC.ctor, cairo_create, GC.caps, GC.joins, Cap.toNat, Join.toNat, hseg]

theorem thickLine_updated (rz : Rasterizer) (u : Indeterminate)
    (h0 : ∀ w c j, rz.stroke_extents [] w c j = (0, 0, 0, 0)) :
    (thickLine rz u).updated = Rect.empty.union (Rect.ofExtents
      (rz.stroke_extents hseg 1 (some CAIRO_LINE_CAP_BUTT) (some CAIRO_LINE_JOIN_MITER))) := by
  obtain ⟨hp, hw, hc, hj, -, -, -, -, he⟩ := thickLinePending_state rz u h0
  unfold thickLine
  rw [dtor_updated, Flush_extents, hp, hw, hc, hj, he]

theorem thickLine_drawn (rz : Rasterizer) (u : Indeterminate)
    (h0 : ∀ w c j, rz.stroke_extents [] w c j = (0, 0, 0, 0)) :
    ∃ S : cairo_pattern_t,
      Draw.stroke hseg S 40 (some CAIRO_LINE_CAP_BUTT) (some CAIRO_LINE_JOIN_MITER) ∈
        (thickLine rz u).drawn ∧ S.rgba = u.strokeColor.rgba := by
  obtain ⟨hp, -, -, -, ht, hc, hj, hs, -⟩ := thickLinePending_state rz u h0
  obtain ⟨F, S, hd, -, hS⟩ := Flush_drawn rz (thickLinePending rz u)
  refine ⟨S, ?_, by rw [hS, hs]⟩
  unfold thickLine
  rw [dtor_drawn, hd, hp, ht, hc, hj]
  simp [GC.caps, GC.joins]

/-- C2, evaluated at `Canvas(100, 100); GC; Set(cap_butt); Set(join_miter);
SetThickness(1); SetThickness(40); MoveTo(50, 50); LineTo(60, 50); end GC`, for
every rasterizer that reports zero extents for an empty path and the exact
extents of the horizontal segment: the segment is stroked 40 wide, but the
rect passed to `OnCanvasUpdated` was measured with the line width 1 that the
context still held when `Flush` asked for the extents; it is (0, 0) - (60,
50.5), does not contain the extents (50, 30) - (60, 70) of the committed
stroke and does not cover the stroked point (55, 65). -/
theorem C2_dirty_rect_uses_stale_line_width (rz : Rasterizer) (u : Indeterminate)
    (h0 : ∀ w c j, rz.stroke_extents [] w c j = (0, 0, 0, 0))
    (h1 : rz.stroke_extents hseg 1 (some CAIRO_LINE_CAP_BUTT) (some CAIRO_LINE_JOIN_MITER) =
      (50, 99 / 2, 60, 101 / 2))
    (h40 : rz.stroke_extents hseg 40 (some CAIRO_LINE_CAP_BUTT) (some CAIRO_LINE_JOIN_MITER) =
      (50, 30, 60, 70)) :
    (∃ S : cairo_pattern_t,
      Draw.stroke hseg S 40 (some CAIRO_LINE_CAP_BUTT) (some CAIRO_LINE_JOIN_MITER) ∈
        (thickLine rz u).drawn ∧ S.rgba = u.strokeColor.rgba) ∧
    (thickLine rz u).updated = { x0 := 0, y0 := 0, x1 := 60, y1 := 101 / 2 } ∧
    ¬ (thickLine rz u).updated.contains (Rect.ofExtents
      (rz.stroke_extents hseg 40 (some CAIRO_LINE_CAP_BUTT) (some CAIRO_LINE_JOIN_MITER))) ∧
    ¬ (thickLine rz u).updated.covers 55 65 := by
  have hupd : (thickLine rz u).updated = { x0 := 0, y0 := 0, x1 := 60, y1 := 101 / 2 } := by
    rw [thickLine_updated rz u h0, h1]
    simp [Rect.empty, Rect.union, Rect.ofExtents, Rect.ofCorners]
    norm_num
  refine ⟨thickLine_drawn rz u h0, hupd, ?_, ?_⟩
  · rw [hupd, h40]
    simp [Rect.contains, Rect.ofExtents, Rect.ofCorners]
    norm_num
  · rw [hupd]
    simp [Rect.covers]
    norm_num

/-- C2, the evaluation holds for the sample rasterizer and sample member
values. -/
theorem C2_dirty_rect_uses_stale_line_width_witness :
    (∃ S : cairo_pattern_t,
      Draw.stroke hseg S 40 (some CAIRO_LINE_CAP_BUTT) (some CAIRO_LINE_JOIN_MITER) ∈
        (thickLine hlineRasterizer u0).drawn ∧ S.rgba = u0.strokeColor.rgba) ∧
    (thickLine hlineRasterizer u0).updated = { x0 := 0, y0 := 0, x1 := 60, y1 := 101 / 2 } ∧
    ¬ (thickLine hlineRasterizer u0).updated.contains (Rect.ofExtents
      (hlineRasterizer.stroke_extents hseg 40 (some CAIRO_LINE_CAP_BUTT)
        (some CAIRO_LINE_JOIN_MITER))) ∧
    ¬ (thickLine hlineRasterizer u0).updated.covers 55 65 :=
  C2_dirty_rect_uses_stale_line_width hlineRasterizer u0 hlineRasterizer_empty
    (by rw [hlineRasterizer_hseg]; norm_num) (by rw [hlineRasterizer_hseg]; norm_num)

/-! ## Claims on construction and on image loading -/

theorem Setter_call_enumsValid (rz : Rasterizer) (g : GC) (s : GC.Setter) (h : g.enumsValid) :
    (s.call rz g).enumsValid := by
  obtain ⟨hc, hj, -⟩ : (g.Flush rz).cap = g.cap ∧ (g.Flush rz).join = g.join ∧ True :=
    ⟨(Flush_frame rz g).2.2.2.1, (Flush_frame rz g).2.2.2.2.1, trivial⟩
  rw [Setter_call_eq]
  unfold GC.enumsValid at *
  cases s with
  | SetCap c => cases c <;> simp [GC.Setter.store, Cap.toNat, hj, h.2]
  | SetJoin j => cases j <;> simp [GC.Setter.store, Join.toNat, hc, h.1]
  | _ => simp [GC.Setter.store, hc, hj, h.1, h.2]

/-- C10, evaluated at a new GC whose storage held 7 and 9 where `cap` and
`join` live: the constructor initialises neither member, so they keep these
values, and the `Flush` of the first setter reads `caps[7]` and `joins[9]`
past the end of the 3-entry tables. -/
theorem C10_cap_join_not_initialised :
    (GC.ctor (Canvas.ctor 10 10) u7).cap = 7 ∧ (GC.ctor (Canvas.ctor 10 10) u7).join = 9 ∧
    GC.caps.length = 3 ∧ GC.joins.length = 3 ∧
    ¬ (GC.ctor (Canvas.ctor 10 10) u7).enumsValid ∧
    (afterSetStroke hlineRasterizer u7).gc.calls =
      [Call.stroke_extents, Call.set_source_rgba 0 0 0 255, Call.fill_preserve,
       Call.set_source_rgba 0 0 0 255, Call.set_line_width 1, Call.set_line_cap none,
       Call.set_line_join none, Call.stroke] := by
  refine ⟨rfl, rfl, rfl, rfl, by simp [GC.enumsValid, GC.ctor, u7], ?_⟩
  simp [afterSetStroke, GC.SetStroke, Flush_calls, GC.ctor, cairo_create, u7, black, Pixel.comp,
    GC.caps, GC.joins]

theorem strcasecmp_eq_zero (a b : String) : strcasecmp a b = 0 ↔ eqIgnoreCase b a := by
  unfold strcasecmp eqIgnoreCase
  dsimp only
  constructor
  · intro h
    by_contra hne
    have hne2 : ¬ (a.data.map Char.toLower = b.data.map Char.toLower) := fun e => hne e.symm
    rw [if_neg hne2] at h
    split at h <;> simp at h
  · intro h
    rw [if_pos h.symm]

theorem not_both_ext (e : String) : ¬ (eqIgnoreCase e ".jpg" ∧ eqIgnoreCase e ".jpeg") := by
  unfold eqIgnoreCase
  rintro ⟨h1, h2⟩
  have := congrArg List.length (h1.symm.trans h2)
  simp at this

/-- C4: `Load` calls `LoadJPEG` first, and only then, when the extension of the
path is `.jpg` or `.jpeg` ignoring case, and returns its surface when that is
not null; in every other case it calls the PNG loader and returns its surface
when that is not null; it throws exactly when every loader it called returned
null. -/
theorem C4_Load_dispatch (env : Loaders) (path : String) :
    Canvas.Load env path =
      (if hasJpegExt path then
        match env.LoadJPEG path with
        | some s => (Except.ok s, [LoaderCall.LoadJPEG path])
        | none =>
          match env.cairo_image_surface_create_from_png path with
          | some s => (Except.ok s,
              [LoaderCall.LoadJPEG path, LoaderCall.cairo_image_surface_create_from_png path])
          | none => (Except.error (-1),
              [LoaderCall.LoadJPEG path, LoaderCall.cairo_image_surface_create_from_png path])
      else
        match env.cairo_image_surface_create_from_png path with
        | some s => (Except.ok s, [LoaderCall.cairo_image_surface_create_from_png path])
        | none => (Except.error (-1), [LoaderCall.cairo_image_surface_create_from_png path])) ∧
    (LoaderCall.LoadJPEG path ∈ (Canvas.Load env path).2 ↔ hasJpegExt path) ∧
    ((∃ v, (Canvas.Load env path).1 = Except.error v) ↔
      ∀ call ∈ (Canvas.Load env path).2, call.result env = none) := by
  have key : Canvas.Load env path =
      (if hasJpegExt path then
        match env.LoadJPEG path with
        | some s => (Except.ok s, [LoaderCall.LoadJPEG path])
        | none =>
          match env.cairo_image_surface_create_from_png path with
          | some s => (Except.ok s,
              [LoaderCall.LoadJPEG path, LoaderCall.cairo_image_surface_create_from_png path])
          | none => (Except.error (-1),
              [LoaderCall.LoadJPEG path, LoaderCall.cairo_image_surface_create_from_png path])
      else
        match env.cairo_image_surface_create_from_png path with
        | some s => (Except.ok s, [LoaderCall.cairo_image_surface_create_from_png path])
        | none => (Except.error (-1), [LoaderCall.cairo_image_surface_create_from_png path])) := by
    have hnb := not_both_ext (extension path)
    unfold Canvas.Load hasJpegExt
    simp only [exts, Load.loop, strcasecmp_eq_zero, Loader.call]
    by_cases h1 : eqIgnoreCase (extension path) ".jpg"
    · have h2 : ¬ eqIgnoreCase (extension path) ".jpeg" := fun h => hnb ⟨h1, h⟩
      cases hj : env.LoadJPEG path <;> cases hp : env.cairo_image_surface_create_from_png path <;>
        simp [h1, h2, hj, hp]
    · by_cases h2 : eqIgnoreCase (extension path) ".jpeg"
      · cases hj : env.LoadJPEG path <;> cases hp : env.cairo_image_surface_create_from_png path <;>
          simp [h1, h2, hj, hp]
      · cases hp : env.cairo_image_surface_create_from_png path <;> simp [h1, h2, hp]
  refine ⟨key, ?_, ?_⟩
  · rw [key]
    by_cases h : hasJpegExt path
    · cases hj : env.LoadJPEG path <;> cases hp : env.cairo_image_surface_create_from_png path <;>
        simp [h, hj, hp]
    · cases hp : env.cairo_image_surface_create_from_png path <;> simp [h, hp]
  · rw [key]
    by_cases h : hasJpegExt path
    · cases hj : env.LoadJPEG path <;> cases hp : env.cairo_image_surface_create_from_png path <;>
        simp [h, hj, hp, LoaderCall.result]
    · cases hp : env.cairo_image_surface_create_from_png path <;>
        simp [h, hp, LoaderCall.result]

theorem LoadJPEG_open_failure (w : World) (h : w.open_fd < 0) :
    Canvas.LoadJPEG w = (Outcome.returned none, []) := by
  simp [Canvas.LoadJPEG, h]

theorem LoadJPEG_paired (w : World) (hfd : 0 ≤ w.open_fd) (hp : w.mmap_ptr ≠ 0)
    (hm : w.mmap_ptr ≠ MAP_FAILED) (hc : w.create_decompress_ok = true) (hs : w.st_size ≠ 0) :
    Ev.paired (Canvas.LoadJPEG w).2 w.open_fd w.mmap_ptr ∧
    ∃ r, (Canvas.LoadJPEG w).1 = Outcome.returned r ∧
      (Canvas.LoadJPEG w).2.count Ev.surface_create =
        (Canvas.LoadJPEG w).2.count Ev.surface_destroy + (if r.isSome then 1 else 0) := by
  have hfd2 : ¬ w.open_fd < 0 := not_lt.mpr hfd
  cases hh : w.read_header with
  | none => simp [Canvas.LoadJPEG, LoadJPEG.tryBlock, Ev.paired, hfd2, hp, hm, hc, hs, hh]
  | some wh =>
    obtain ⟨iw, ih⟩ := wh
    cases hsc : w.surface_create iw ih with
    | none => simp [Canvas.LoadJPEG, LoadJPEG.tryBlock, Ev.paired, hfd2, hp, hm, hc, hs, hh, hsc]
    | some sf =>
      cases hn : w.new_rows with
      | bad_alloc =>
        simp [Canvas.LoadJPEG, LoadJPEG.tryBlock, Ev.paired, hfd2, hp, hm, hc, hs, hh, hsc, hn]
      | null =>
        simp [Canvas.LoadJPEG, LoadJPEG.tryBlock, Ev.paired, hfd2, hp, hm, hc, hs, hh, hsc, hn]
      | allocated =>
        by_cases h1 : w.start_decompress_ok = true
        · by_cases h2 : LoadJPEG.scan w ih 0 = true
          · by_cases h3 : w.finish_decompress_ok = true
            · simp [Canvas.LoadJPEG, LoadJPEG.tryBlock, Ev.paired, hfd2, hp, hm, hc, hs, hh, hsc,
                hn, h1, h2, h3]
            · simp [Canvas.LoadJPEG, LoadJPEG.tryBlock, Ev.paired, hfd2, hp, hm, hc, hs, hh, hsc,
                hn, h1, h2, h3]
          · simp [Canvas.LoadJPEG, LoadJPEG.tryBlock, Ev.paired, hfd2, hp, hm, hc, hs, hh, hsc,
              hn, h1, h2]
        · simp [Canvas.LoadJPEG, LoadJPEG.tryBlock, Ev.paired, hfd2, hp, hm, hc, hs, hh, hsc, hn,
            h1]

/-- C5, evaluated where `mmap` fails.  When it returns the null pointer, the
value the code tests for, `LoadJPEG` returns null after opening descriptor 3
and never closes it.  When it returns `MAP_FAILED`, as for an empty file, the
test does not see the failure and the decoder's standard `error_exit` ends the
process, again without a close.  For comparison the same file mapped at a
non-null address is decoded with every resource released. -/
theorem C5_mmap_failure_leaks_fd :
    Canvas.LoadJPEG nullMapWorld = (Outcome.returned none, [Ev.open_ok 3, Ev.mmap 0]) ∧
    Ev.close 3 ∉ (Canvas.LoadJPEG nullMapWorld).2 ∧
    ¬ Ev.paired (Canvas.LoadJPEG nullMapWorld).2 3 0 ∧
    Canvas.LoadJPEG emptyFileWorld =
      (Outcome.exited, [Ev.open_ok 3, Ev.mmap MAP_FAILED, Ev.jpeg_create_decompress]) ∧
    Ev.close 3 ∉ (Canvas.LoadJPEG emptyFileWorld).2 ∧
    (Canvas.LoadJPEG decodableWorld).2 =
      [Ev.open_ok 3, Ev.mmap 4096, Ev.jpeg_create_decompress, Ev.surface_create, Ev.new_rows,
       Ev.jpeg_destroy_decompress, Ev.delete_rows, Ev.munmap 4096, Ev.close 3] := by
  have h1 : Canvas.LoadJPEG nullMapWorld = (Outcome.returned none, [Ev.open_ok 3, Ev.mmap 0]) := by
    simp [Canvas.LoadJPEG, nullMapWorld]
  have h2 : Canvas.LoadJPEG emptyFileWorld =
      (Outcome.exited, [Ev.open_ok 3, Ev.mmap MAP_FAILED, Ev.jpeg_create_decompress]) := by
    simp [Canvas.LoadJPEG, emptyFileWorld, nullMapWorld, MAP_FAILED]
  refine ⟨h1, ?_, ?_, h2, ?_, ?_⟩
  · rw [h1]; simp
  · rw [h1]; simp [Ev.paired]
  · rw [h2]; simp
  · have hscan : LoadJPEG.scan decodableWorld 1 0 = true := by
      rw [LoadJPEG.scan]
      simp [decodableWorld, nullMapWorld]
      rw [LoadJPEG.scan]
      simp
    simp [Canvas.LoadJPEG, LoadJPEG.tryBlock, decodableWorld, nullMapWorld, MAP_FAILED] at hscan ⊢
    simp [hscan]

end tb
